import Mathlib

/-!
Verification development for the pixel-organism simulation engine
(src/simulation.ts, class Simulation).

Modeling conventions of this shallow embedding:

* JS numbers that hold real values (energy, stamina, rates) are modeled as
  rationals; decimal literals of the source such as 0.001 are written as
  fractions (1/1000).  JS integer arithmetic is modeled on Nat / Int with
  an explicit mod 2^32 where the source relies on 32-bit wrapping.
* The string keys of the source (template literals of the shape x,y) are
  modeled as pairs of integers; the translation x,y is injective on
  in-range coordinates, so the key spaces are isomorphic.
* A JS Map is modeled as an association list in insertion order; Map.set
  on a fresh key appends, on an existing key updates in place, matching
  the iteration-order semantics of JS Maps.
* The flat typed arrays grid and pixelHP, indexed by y * gridSize + x over
  in-range coordinates, are modeled as total functions from coordinate
  pairs; every access of the source happens at in-range coordinates
  (post applyBoundary), where the index translation is injective.
* Every call of Math.random, and every composite computation whose value
  is derived from Math.random (the direction policy, the shuffled
  reproduction offsets, genome mutation and generation), is supplied by
  an explicit Oracle argument; Math.pow on non-integral exponents is a
  transcendental float function and is likewise supplied by the Oracle.
  No claim constrains these values, so the theorems quantify over them.
* Terrain generation (generateTerrain) is pure Math.random seeding that
  runs once before the simulation starts and is not the subject of any
  claim; states simply start from an arbitrary grid, which subsumes every
  terrain the generator can produce.
-/

namespace PixelSim

/-- Coordinate pair, standing for the x,y string keys of the source. -/
abbrev Pos := ℤ × ℤ

/-- Boundary mode of the params: wrap (torus) or closed. -/
inductive BoundaryMode where
  | wrap : BoundaryMode
  | closed : BoundaryMode
deriving DecidableEq, Repr

/-- SimulationParams (simulation.ts lines 1-28); terrain fields are omitted
because terrain generation runs before the simulation and is random. -/
structure SimulationParams where
  gridSize : ℕ
  c2 : ℚ
  foodSpawnRate : ℚ
  mutationRate : ℚ
  reproductionThreshold : ℚ
  maxMoveSpeed : ℕ
  viewRadius : ℕ
  energyTransferRatio : ℚ
  metabolismRate : ℚ
  movementEnergyReserve : ℚ
  movementEnergyCostMultiplier : ℚ
  growthEnergyCost : ℚ
  foodDecayTicks : ℤ
  foodDecayReturnRatio : ℚ
  attackEnergyCost : ℚ
  absorbEnergyCost : ℚ
  boundaryMode : BoundaryMode
  movementEnergyCostExponent : ℚ
  staminaMax : ℚ
  staminaRecoveryPerTick : ℚ
  staminaDrainPerStep : ℚ
deriving DecidableEq, Repr

/-- Genome (simulation.ts lines 37-41). -/
structure Genome where
  pattern : List ℕ
  size : ℕ
  totalCells : ℕ
deriving DecidableEq, Repr

/-- Organism (simulation.ts lines 43-60).  The pixels Map is an association
list from coordinate to hit points, in insertion order. -/
structure Organism where
  id : ℕ
  eyeX : ℤ
  eyeY : ℤ
  pixels : List (Pos × ℕ)
  energy : ℚ
  moveSpeed : ℕ
  viewRadius : ℕ
  hunger : ℚ
  direction : ℤ × ℤ
  genome : Genome
  growthStage : ℕ
  speciesMask : ℕ
  age : ℕ
  stuckCounter : ℕ
  stamina : ℚ
  movedThisTick : Bool
deriving DecidableEq, Repr

/-- Reservation record (simulation.ts lines 62-65); the id field is the
grid code of the reserving occupant (organism id, -1 food, -2 obstacle). -/
structure Reservation where
  id : ℤ
  priority : ℕ
deriving DecidableEq, Repr

/-- DIRECTIONS (simulation.ts lines 67-76). -/
def DIRECTIONS : List (ℤ × ℤ) :=
  [(-1, -1), (-1, 0), (-1, 1), (0, -1), (0, 1), (1, -1), (1, 0), (1, 1)]

/-- Mutable state of a Simulation instance (simulation.ts lines 78-104).
Grid codes: 0 empty, -1 food, -2 obstacle, id > 0 owned. -/
structure SimState where
  gridSize : ℕ
  params : SimulationParams
  grid : Pos → ℤ
  pixelHP : Pos → ℕ
  organisms : List Organism
  foodPixels : List (Pos × ℤ)
  obstacleKeys : List Pos
  nextID : ℕ
  tick : ℕ
  envEnergy : ℚ
  debugMoving : ℕ
  debugGrowing : ℕ
  debugAttacking : ℕ
  debugStarving : ℕ

/-- wrapCoord (simulation.ts lines 115-120): JS percent is the truncating
remainder, negative results are shifted up by the modulus. -/
def wrapCoord (m : ℕ) (value : ℤ) : ℤ :=
  let v := Int.tmod value (m : ℤ)
  if v < 0 then v + (m : ℤ) else v

/-- boundX (simulation.ts lines 122-125), parametrized by grid size and
boundary mode; none stands for the null of the source. -/
def boundX (m : ℕ) (bm : BoundaryMode) (x : ℤ) : Option ℤ :=
  match bm with
  | .wrap => some (wrapCoord m x)
  | .closed => if 0 ≤ x ∧ x < (m : ℤ) then some x else none

/-- boundY (simulation.ts lines 127-130); identical to boundX because the
grid is square. -/
def boundY (m : ℕ) (bm : BoundaryMode) (y : ℤ) : Option ℤ :=
  boundX m bm y

/-- applyBoundary (simulation.ts lines 132-137). -/
def applyBoundary (m : ℕ) (bm : BoundaryMode) (x y : ℤ) : Option Pos :=
  match boundX m bm x, boundY m bm y with
  | some bx, some by_ => some (bx, by_)
  | _, _ => none

/-- Neighbor offsets in the traversal order of the nested loops of
neighbors8 (dy outer from -1 to 1, dx inner, center skipped). -/
def neighborDeltas : List (ℤ × ℤ) :=
  [(-1, -1), (0, -1), (1, -1), (-1, 0), (1, 0), (-1, 1), (0, 1), (1, 1)]

/-- neighbors8 (simulation.ts lines 139-149). -/
def neighbors8 (m : ℕ) (bm : BoundaryMode) (x y : ℤ) : List Pos :=
  neighborDeltas.filterMap (fun d => applyBoundary m bm (x + d.1) (y + d.2))

/-- toUint32 models the 32-bit coercions of JS bitwise operators
(ToInt32 and the unsigned shift by zero) on nonnegative inputs. -/
def toUint32 (n : ℕ) : ℕ := n % 4294967296

/-- hash (simulation.ts lines 151-159): xor-mix of tick, coordinates and
id, coerced to an unsigned 32-bit value.  Coordinates are in range
(post applyBoundary), hence nonnegative, so toNat is exact. -/
def hash (tick : ℕ) (x y : ℤ) (id : ℕ) : ℕ :=
  toUint32 (Nat.xor
    (Nat.xor
      (Nat.xor (toUint32 (tick * 73856093)) (toUint32 (x.toNat * 19349663)))
      (toUint32 (y.toNat * 83492791)))
    (toUint32 (id * 50331653)))

/-- randomDirection (simulation.ts lines 161-163); the Math.random draw is
the roll argument, reduced mod 8 like floor(random * 8). -/
def randomDirection (roll : ℕ) : ℤ × ℤ :=
  DIRECTIONS.getD (roll % 8) (0, 0)

/-- Map.has on a coordinate-keyed association list (the JS Maps of the
source keyed by x,y strings). -/
def amHas {β : Type} (l : List (Pos × β)) (k : Pos) : Bool :=
  l.any (fun e => e.1 = k)

/-- Map.get on a coordinate-keyed association list. -/
def amGet {β : Type} (l : List (Pos × β)) (k : Pos) : Option β :=
  (l.find? (fun e => e.1 = k)).map (fun e => e.2)

/-- Map.set on a coordinate-keyed association list: update in place when
the key exists, append otherwise (JS Map insertion-order semantics). -/
def amSet {β : Type} (l : List (Pos × β)) (k : Pos) (v : β) : List (Pos × β) :=
  if l.any (fun e => e.1 = k) then
    l.map (fun e => if e.1 = k then (k, v) else e)
  else l ++ [(k, v)]

/-- Map.delete on a coordinate-keyed association list. -/
def amDel {β : Type} (l : List (Pos × β)) (k : Pos) : List (Pos × β) :=
  l.filter (fun e => ¬ e.1 = k)

/-- Key list of a coordinate-keyed association list. -/
def amKeys {β : Type} (l : List (Pos × β)) : List Pos := l.map (fun e => e.1)

/-- Pointwise update of a grid / hit-point array at one cell. -/
def updFn {α : Type} (g : Pos → α) (p : Pos) (v : α) : Pos → α :=
  fun q => if q = p then v else g q

/-- Setter for the envEnergy field. -/
def withEnv (s : SimState) (v : ℚ) : SimState := { s with envEnergy := v }

/-- Setter for the grid array. -/
def withGrid (s : SimState) (g : Pos → ℤ) : SimState := { s with grid := g }

/-- Setter for the hit-point array. -/
def withHP (s : SimState) (h : Pos → ℕ) : SimState := { s with pixelHP := h }

/-- Setter for the food map. -/
def withFood (s : SimState) (l : List (Pos × ℤ)) : SimState := { s with foodPixels := l }

/-- Write of one grid cell together with its hit points (the shape of the
movement source-clearing and destination-writing passes and of the kill
vacating). -/
def writeCell (s : SimState) (p : Pos) (code : ℤ) (hp : ℕ) : SimState :=
  { s with grid := updFn s.grid p code, pixelHP := updFn s.pixelHP p hp }

/-- Increment of the growing debug counter. -/
def bumpGrowing (s : SimState) : SimState := { s with debugGrowing := s.debugGrowing + 1 }

/-- Increment of the attacking debug counter. -/
def bumpAttacking (s : SimState) : SimState := { s with debugAttacking := s.debugAttacking + 1 }

/-- Addition to the starving debug counter. -/
def bumpStarving (s : SimState) (n : ℕ) : SimState := { s with debugStarving := s.debugStarving + n }

/-- Addition to the moving debug counter. -/
def bumpMoving (s : SimState) (n : ℕ) : SimState := { s with debugMoving := s.debugMoving + n }

/-- organisms.get(id) : the registry lookup (ids are unique). -/
def getOrg (s : SimState) (id : ℕ) : Option Organism :=
  s.organisms.find? (fun o => o.id = id)

/-- In-place mutation of the organism with the given id inside the
registry, leaving every other organism untouched. -/
def modifyOrg (s : SimState) (id : ℕ) (f : Organism → Organism) : SimState :=
  { s with organisms := s.organisms.map (fun o => if o.id = id then f o else o) }

/-- Convenience accessors mirroring this.applyBoundary and friends. -/
def SimState.applyB (s : SimState) (x y : ℤ) : Option Pos :=
  applyBoundary s.gridSize s.params.boundaryMode x y

/-- this.neighbors8 of a state. -/
def SimState.nbrs (s : SimState) (x y : ℤ) : List Pos :=
  neighbors8 s.gridSize s.params.boundaryMode x y

/-- Rolls standing for the Math.random draws inside createOrganism: the
generated genome (used only when the genome argument is null), the
moveSpeed draw, the hunger draw and the initial direction draw. -/
structure CreateRolls where
  genGenome : Genome
  moveSpeedRoll : ℕ
  hungerRoll : ℚ
  dirRoll : ℕ
deriving Repr

/-- speciesMaskFromGenome (simulation.ts lines 354-373): one bit per
non-center cell of the 3 x 3 block around the genome center, in the same
traversal order as neighborDeltas; bitIndex advances for every non-center
offset, including out-of-range ones. -/
def speciesMaskFromGenome (genome : Genome) : ℕ :=
  let size := genome.size
  let cx : ℤ := (size : ℤ) / 2
  let cy : ℤ := (size : ℤ) / 2
  (List.range 8).foldl (fun mask bitIndex =>
    let d := neighborDeltas.getD bitIndex (0, 0)
    let gx := cx + d.1
    let gy := cy + d.2
    if 0 ≤ gx ∧ gx < (size : ℤ) ∧ 0 ≤ gy ∧ gy < (size : ℤ) then
      let gi := (gy * (size : ℤ) + gx).toNat
      if genome.pattern.getD gi 0 = 1 then mask ||| (1 <<< bitIndex) else mask
    else mask) 0

/-- Offsets of the 3 x 3 occupancy scan of createOrganism (dy outer, dx
inner, center included: the source loop does not skip dx = dy = 0). -/
def blockDeltas : List (ℤ × ℤ) :=
  [(-1, -1), (0, -1), (1, -1), (-1, 0), (0, 0), (1, 0), (-1, 1), (0, 1), (1, 1)]

/-- createOrganism (simulation.ts lines 375-424).  Returns the created
organism (none on failure) together with the updated state.  An
out-of-bounds 3 x 3 neighbor is skipped by the continue of the source,
not treated as a failure. -/
def createOrganism (s : SimState) (rolls : CreateRolls) (eyeX eyeY : ℤ)
    (genome : Option Genome) (energy : Option ℚ) : Option Organism × SimState :=
  match s.applyB eyeX eyeY with
  | none => (none, s)
  | some (ex, ey) =>
    if blockDeltas.any (fun d =>
        match s.applyB (ex + d.1) (ey + d.2) with
        | none => false
        | some p => s.grid p ≠ 0) then
      (none, s)
    else
      let id := s.nextID
      let gen := genome.getD rolls.genGenome
      let org : Organism :=
        { id := id
          eyeX := ex
          eyeY := ey
          pixels := amSet [] (ex, ey) gen.totalCells
          energy := energy.getD 400
          moveSpeed := 1 + rolls.moveSpeedRoll % max 1 s.params.maxMoveSpeed
          viewRadius := s.params.viewRadius
          hunger := 1/2 + rolls.hungerRoll * (3/10)
          direction := randomDirection rolls.dirRoll
          genome := gen
          growthStage := 0
          speciesMask := speciesMaskFromGenome gen
          age := 0
          stuckCounter := 0
          stamina := s.params.staminaMax
          movedThisTick := false }
      (some org,
        { s with
          grid := updFn s.grid (ex, ey) (id : ℤ)
          pixelHP := updFn s.pixelHP (ex, ey) gen.totalCells
          organisms := s.organisms ++ [org]
          nextID := s.nextID + 1 })

/-- Ascending integer interval a..b (empty when b < a), one JS for loop. -/
def intsAsc (a b : ℤ) : List ℤ :=
  (List.range ((b + 1 - a).toNat)).map (fun i => a + (i : ℤ))

/-- Descending integer interval a down to b (empty when a < b). -/
def intsDesc (a b : ℤ) : List ℤ :=
  (List.range ((a + 1 - b).toNat)).map (fun i => a - (i : ℤ))

/-- Clockwise ring offsets of growOrganism (simulation.ts lines 436-441):
top row left to right, right column top to bottom, bottom row right to
left, left column bottom to top. -/
def ringSegments (r : ℤ) : List (ℤ × ℤ) :=
  (intsAsc (-r) r).map (fun dx => (dx, -r)) ++
  (intsAsc (-r + 1) r).map (fun dy => (r, dy)) ++
  (intsDesc (r - 1) (-r)).map (fun dx => (dx, r)) ++
  (intsDesc (r - 1) (-r + 1)).map (fun dy => (-r, dy))

/-- First successful result of f along a list (the first candidate that
survives every continue of the source loop). -/
def firstSome {α β : Type} (f : α → Option β) : List α → Option β
  | [] => none
  | a :: rest =>
    match f a with
    | some b => some b
    | none => firstSome f rest

/-- Candidate test for one ring offset of growOrganism (simulation.ts
lines 443-467): pattern cell set, world cell in bounds, not already
realized, empty, and 8-adjacent to an owned cell. -/
def growthCandidate (s : SimState) (org : Organism) (d : ℤ × ℤ) : Option Pos :=
  let size := org.genome.size
  let cx : ℤ := (size : ℤ) / 2
  let cy : ℤ := (size : ℤ) / 2
  let gx := cx + d.1
  let gy := cy + d.2
  if gx < 0 ∨ gx ≥ (size : ℤ) ∨ gy < 0 ∨ gy ≥ (size : ℤ) then none
  else if org.genome.pattern.getD ((gy * (size : ℤ) + gx).toNat) 0 = 0 then none
  else
    match s.applyB (org.eyeX + d.1) (org.eyeY + d.2) with
    | none => none
    | some b =>
      if amHas org.pixels b then none
      else if s.grid b ≠ 0 then none
      else if (s.nbrs b.1 b.2).any (fun n => amHas org.pixels n) then some b
      else none

/-- Ring scan of growOrganism: radii 1 to ceil(size / 2), each ring in
clockwise order, first valid candidate wins. -/
def findGrowthCell (s : SimState) (org : Organism) : Option Pos :=
  firstSome (fun r => firstSome (growthCandidate s org) (ringSegments r))
    (intsAsc 1 (((org.genome.size + 1) / 2 : ℕ) : ℤ))

/-- growOrganism (simulation.ts lines 426-480).  Returns the updated state
and the success flag.  The growth-complete comparison is carried out on
integers because the source computes totalCells - 1 in JS arithmetic. -/
def growOrganism (s : SimState) (orgId : ℕ) : SimState × Bool :=
  match getOrg s orgId with
  | none => (s, false)
  | some org =>
    if (org.growthStage : ℤ) ≥ (org.genome.totalCells : ℤ) - 1 then (s, false)
    else
      let growthCost := max 0 s.params.growthEnergyCost
      if org.energy < growthCost then (s, false)
      else
        match findGrowthCell s org with
        | none => (s, false)
        | some p =>
          let s2 := bumpGrowing (writeCell s p (orgId : ℤ) org.genome.totalCells)
          (modifyOrg s2 orgId (fun o =>
            { o with pixels := amSet o.pixels p o.genome.totalCells
                     growthStage := o.growthStage + 1
                     energy := o.energy - growthCost }), true)

/-- Conversion of one cell into food: grid code -1, hit points 1, decay
timer foodDecayTicks (the shared shape of removeOrganism, the detach pass
of checkConnectivity, and the orphan demotion of verifyAndSync). -/
def foodifyCell (acc : SimState) (k : Pos) : SimState :=
  { acc with
    grid := updFn acc.grid k (-1)
    pixelHP := updFn acc.pixelHP k 1
    foodPixels := amSet acc.foodPixels k acc.params.foodDecayTicks }

/-- removeOrganism (simulation.ts lines 1091-1106): every owned cell
becomes food (grid -1, hit points 1, decay timer foodDecayTicks) and the
organism leaves the registry. -/
def removeOrganism (s : SimState) (id : ℕ) : SimState :=
  match getOrg s id with
  | none => s
  | some org =>
    let s2 := (amKeys org.pixels).foldl foodifyCell s
    { s2 with organisms := s2.organisms.filter (fun o => ¬ o.id = id) }

/-- Queue-based traversal of checkConnectivity (simulation.ts lines
970-987): pop the front, append unvisited owned neighbors to the queue
and to the reachable set.  Fuel bounds the number of pops; pixels.length
plus two pops always suffice because every enqueued key enters the
reachable list, whose elements are distinct members of the key set. -/
def bfsExpand (s : SimState) (pix : List (Pos × ℕ)) :
    ℕ → List Pos → List Pos → List Pos
  | 0, _, reachable => reachable
  | _ + 1, [], reachable => reachable
  | fuel + 1, k :: rest, reachable =>
    let ex := (s.nbrs k.1 k.2).foldl
      (fun (acc : List Pos × List Pos) n =>
        if amHas pix n ∧ ¬ acc.1.any (fun q => q = n) then
          (acc.1 ++ [n], acc.2 ++ [n])
        else acc)
      (reachable, [])
    bfsExpand s pix fuel (rest ++ ex.2) ex.1

/-- checkConnectivity (simulation.ts lines 958-1004): destroy the
organism when its pixel set is empty or misses the eye; otherwise detach
every key not reached from the eye by the traversal (turning it into
food) and destroy the organism if nothing remains. -/
def checkConnectivity (s : SimState) (id : ℕ) : SimState :=
  match getOrg s id with
  | none => s
  | some org =>
    if org.pixels.length = 0 then removeOrganism s id
    else
      let eyeKey : Pos := (org.eyeX, org.eyeY)
      if ¬ amHas org.pixels eyeKey then removeOrganism s id
      else
        let reachable := bfsExpand s org.pixels (org.pixels.length + 2) [eyeKey] [eyeKey]
        let detached := (amKeys org.pixels).filter (fun k => ¬ reachable.any (fun q => q = k))
        let s2 := detached.foldl foodifyCell s
        let s3 := modifyOrg s2 id (fun o =>
          { o with pixels := o.pixels.filter (fun e => reachable.any (fun q => q = e.1)) })
        match getOrg s3 id with
        | some org2 => if org2.pixels.length = 0 then removeOrganism s3 id else s3
        | none => s3

/-- performAttack models simulation.ts lines 888-920: the body of combat
once a target cell has been drawn.  The liveness check of the source
(this.organisms.get(org.id)) is always true for the iterated attacker and
is subsumed by the registry lookup here. -/
def performAttack (s : SimState) (orgId : ℕ) (tx ty : ℤ) (targetID : ℕ) : SimState :=
  match getOrg s orgId with
  | none => s
  | some org =>
    let t : Pos := (tx, ty)
    if s.params.attackEnergyCost > 0 ∧ org.energy - s.params.attackEnergyCost ≤ 0 then s
    else
      let s1 := if s.params.attackEnergyCost > 0 then
          modifyOrg s orgId (fun o => { o with energy := o.energy - s.params.attackEnergyCost })
        else s
      let hp2 := s1.pixelHP t - 1
      let s2 := withHP s1 (updFn s1.pixelHP t hp2)
      if hp2 > 0 then s2
      else
        let energy := s2.params.c2
        let s3 := modifyOrg s2 orgId (fun o =>
          { o with energy := o.energy + energy * s2.params.energyTransferRatio })
        let s4 := withGrid (withEnv s3 (s3.envEnergy + energy * (1 - s3.params.energyTransferRatio)))
          (updFn s3.grid t 0)
        let s5 :=
          match getOrg s4 targetID with
          | some _ => checkConnectivity
              (modifyOrg s4 targetID (fun o => { o with pixels := amDel o.pixels t })) targetID
          | none => s4
        bumpAttacking s5

/-- Collection of attackable neighbor cells of one attacker (simulation.ts
lines 853-884).  The equal-size Math.random comparison with hunger times
0.6 is supplied by the eqRoll argument. -/
def attackTargets (eqRoll : ℕ → Pos → Bool) (s : SimState) (org : Organism) :
    List (ℤ × ℤ × ℕ) :=
  (amKeys org.pixels).flatMap (fun k =>
    (s.nbrs k.1 k.2).filterMap (fun n =>
      let targetID := s.grid n
      if targetID = -1 then none
      else if targetID ≤ 0 ∨ targetID = (org.id : ℤ) then none
      else
        match getOrg s targetID.toNat with
        | none => none
        | some target =>
          if target.speciesMask = org.speciesMask then none
          else
            let canAttack :=
              if org.pixels.length = target.pixels.length then eqRoll org.id n
              else decide (org.pixels.length > target.pixels.length)
            if canAttack then some (n.1, n.2, targetID.toNat) else none))

/-- Oracle bundling every Math.random draw (and Math.pow, a float
transcendental) consumed by one step; no claim constrains these values,
so theorems quantify over arbitrary oracles. -/
structure Oracle where
  pow : ℚ → ℚ → ℚ
  chooseDir : SimState → Organism → ℤ × ℤ
  eqSizeRoll : ℕ → Pos → Bool
  pickRoll : ℕ → ℕ
  spawnRoll : ℕ → ℕ × ℕ
  reproSkip : ℕ → Bool
  shuffledDirs : ℕ → List (ℤ × ℤ)
  mutate : Genome → Genome
  createRolls : ℕ → CreateRolls
  speedDelta : ℕ → ℤ
  hungerJitter : ℕ → ℚ

/-- Turn of one attacker inside combat (simulation.ts lines 852-921):
collect attackable cells, draw one uniformly, execute the attack. -/
def combatOrg (O : Oracle) (s : SimState) (id : ℕ) : SimState :=
  match getOrg s id with
  | none => s
  | some org =>
    let ts := attackTargets O.eqSizeRoll s org
    if ts.isEmpty then s
    else
      let pick := ts.getD (O.pickRoll id % ts.length) (0, 0, 0)
      performAttack s id pick.1 pick.2.1 pick.2.2

/-- combat (simulation.ts lines 852-921): every organism takes one turn in
registry order; organisms destroyed mid-phase are skipped by the lookup,
exactly as the live Map iterator of the source skips deleted entries. -/
def combat (O : Oracle) (s : SimState) : SimState :=
  (s.organisms.map (fun o => o.id)).foldl (combatOrg O) s

/-- Body of the neighbor scan of absorbFood (simulation.ts lines 932-953)
for one neighbor cell; the Bool tells whether the absorbed flag was set
(both the kill and the partial-hit branch set it). -/
def absorbNeighbor (s : SimState) (id : ℕ) (n : Pos) : SimState × Bool :=
  match getOrg s id with
  | none => (s, false)
  | some org =>
    if s.grid n ≠ -1 then (s, false)
    else if s.params.absorbEnergyCost > 0 ∧ org.energy - s.params.absorbEnergyCost ≤ 0 then
      (s, false)
    else
      let s1 := if s.params.absorbEnergyCost > 0 then
          modifyOrg s id (fun o => { o with energy := o.energy - s.params.absorbEnergyCost })
        else s
      let hp2 := s1.pixelHP n - 1
      let s2 := withHP s1 (updFn s1.pixelHP n hp2)
      if hp2 = 0 then
        let s3 := modifyOrg s2 id (fun o =>
          { o with energy := o.energy + s2.params.c2 * s2.params.energyTransferRatio })
        (withFood
          (withGrid (withEnv s3 (s3.envEnergy + s3.params.c2 * (1 - s3.params.energyTransferRatio)))
            (updFn s3.grid n 0))
          (amDel s3.foodPixels n), true)
      else (s2, true)

/-- Scan until the first neighbor sets the absorbed flag; failing
neighbors leave the state untouched, so the nested pixel/neighbor loops
of the source scan exactly this concatenated list. -/
def firstAbsorb (id : ℕ) : SimState → List Pos → SimState
  | s, [] => s
  | s, n :: rest =>
    match absorbNeighbor s id n with
    | (s2, true) => s2
    | (s2, false) => firstAbsorb id s2 rest

/-- Turn of one organism inside absorbFood. -/
def absorbOrg (s : SimState) (id : ℕ) : SimState :=
  match getOrg s id with
  | none => s
  | some org =>
    firstAbsorb id s ((amKeys org.pixels).flatMap (fun k => s.nbrs k.1 k.2))

/-- absorbFood (simulation.ts lines 924-956): at most one absorption per
organism per tick, organisms taken in registry order. -/
def absorbFood (s : SimState) : SimState :=
  (s.organisms.map (fun o => o.id)).foldl absorbOrg s

/-- Turn of one organism inside metabolism (simulation.ts lines
1006-1014): age, size-proportional energy drain, death at energy ≤ 0. -/
def metabOrg (s : SimState) (id : ℕ) : SimState :=
  match getOrg s id with
  | none => s
  | some _ =>
    let s1 := modifyOrg s id (fun o =>
      { o with age := o.age + 1
               energy := o.energy - (o.pixels.length : ℚ) * s.params.metabolismRate })
    match getOrg s1 id with
    | some o2 => if o2.energy ≤ 0 then removeOrganism s1 id else s1
    | none => s1

/-- metabolism (simulation.ts lines 1006-1014). -/
def metabolism (s : SimState) : SimState :=
  (s.organisms.map (fun o => o.id)).foldl metabOrg s

/-- Attempt loop of reproduce (simulation.ts lines 1046-1068) over the
shuffled candidate offsets: first offset whose createOrganism succeeds
wins; the parent then pays 60 percent of the threshold and the child
receives mutated move speed and jittered hunger. -/
def reproTry (O : Oracle) (id : ℕ) : SimState → List (ℤ × ℤ) → SimState
  | s, [] => s
  | s, d :: rest =>
    match getOrg s id with
    | none => s
    | some org =>
      match s.applyB (org.eyeX + d.1) (org.eyeY + d.2) with
      | none => reproTry O id s rest
      | some b =>
        let newGenome := O.mutate org.genome
        let childEnergy := s.params.reproductionThreshold * (2/5)
        match createOrganism s (O.createRolls id) b.1 b.2 (some newGenome) (some childEnergy) with
        | (none, s2) => reproTry O id s2 rest
        | (some child, s2) =>
          let s3 := modifyOrg s2 id (fun o =>
            { o with energy := o.energy - s2.params.reproductionThreshold * (3/5) })
          modifyOrg s3 child.id (fun c =>
            { c with moveSpeed := (max 1 ((org.moveSpeed : ℤ) + O.speedDelta id)).toNat
                     hunger := max 0 (min 1 (org.hunger + O.hungerJitter id)) })

/-- Turn of one candidate parent inside reproduce. -/
def reproduceOrg (O : Oracle) (s : SimState) (id : ℕ) : SimState :=
  match getOrg s id with
  | none => s
  | some _ =>
    if O.reproSkip id then s
    else reproTry O id s (O.shuffledDirs id)

/-- reproduce (simulation.ts lines 1016-1070): parents with energy at or
above the threshold and realized size at least 80 percent of the genome
are snapshot first, then each attempts one offspring. -/
def reproduce (O : Oracle) (s : SimState) : SimState :=
  let ready := (s.organisms.filter (fun o =>
    o.energy ≥ s.params.reproductionThreshold ∧
    (o.pixels.length : ℚ) ≥ (o.genome.totalCells : ℚ) * (4/5))).map (fun o => o.id)
  ready.foldl (reproduceOrg O) s

/-- Loop body of spawnFood (simulation.ts lines 1108-1125); the draw of
floor(random times gridSize) is the spawn roll reduced mod gridSize. -/
def spawnFoodLoop (O : Oracle) : ℕ → ℕ → SimState → SimState
  | 0, _, s => s
  | c + 1, i, s =>
    if s.envEnergy > s.params.c2 then
      let r := O.spawnRoll i
      let p : Pos := (((r.1 % s.gridSize : ℕ) : ℤ), ((r.2 % s.gridSize : ℕ) : ℤ))
      let s2 :=
        if s.grid p = 0 then
          withEnv (withFood (writeCell s p (-1) 1) (amSet s.foodPixels p s.params.foodDecayTicks))
            (s.envEnergy - s.params.c2)
        else s
      spawnFoodLoop O c (i + 1) s2
    else s

/-- spawnFood (simulation.ts lines 1108-1125). -/
def spawnFood (O : Oracle) (s : SimState) : SimState :=
  spawnFoodLoop O (Int.floor (s.envEnergy * s.params.foodSpawnRate / s.params.c2)).toNat 0 s

/-- Removal of one decayed food cell (simulation.ts lines 1138-1148):
the cell reverts to empty and the environment pool is credited with c2
times foodDecayReturnRatio. -/
def decayCell (s : SimState) (k : Pos) : SimState :=
  withEnv (writeCell s k 0 0)
    (s.envEnergy + s.params.c2 * s.params.foodDecayReturnRatio)

/-- updateFoodDecay (simulation.ts lines 1127-1149): decrement every
countdown; entries reaching zero or less revert to empty and credit the
environment pool with c2 times foodDecayReturnRatio. -/
def updateFoodDecay (s : SimState) : SimState :=
  let toDelete := (s.foodPixels.filter (fun e => e.2 - 1 ≤ 0)).map (fun e => e.1)
  let kept := (s.foodPixels.filter (fun e => ¬ e.2 - 1 ≤ 0)).map (fun e => (e.1, e.2 - 1))
  let s1 := withFood s kept
  toDelete.foldl decayCell s1

/-- Scan order of verifyAndSync: y outer, x inner, the index order of the
flat grid array. -/
def scanPositions (m : ℕ) : List Pos :=
  (List.range m).flatMap (fun y => (List.range m).map (fun x => ((x : ℤ), (y : ℤ))))

/-- verifyAndSync (simulation.ts lines 245-268): clear every pixel map,
rebuild it from the grid (hit points of zero are reseeded from the genome
by the JS or), and demote cells of nonexistent owners to food. -/
def verifyAndSync (s : SimState) : SimState :=
  let s0 := { s with organisms := s.organisms.map (fun o => { o with pixels := [] }) }
  (scanPositions s.gridSize).foldl (fun acc p =>
    let owner := acc.grid p
    if owner > 0 then
      match getOrg acc owner.toNat with
      | some _ =>
        modifyOrg acc owner.toNat (fun o =>
          { o with pixels :=
              amSet o.pixels p (if acc.pixelHP p ≠ 0 then acc.pixelHP p else o.genome.totalCells) })
      | none => foodifyCell acc p
    else acc) s0

/-- Per-organism movement bookkeeping of moveOrganisms (simulation.ts
lines 602-609); the org reference of the source is carried by id. -/
structure MoveState where
  orgId : ℕ
  dx : ℤ
  dy : ℤ
  stepCost : ℚ
  stepsRemaining : ℤ
  movedThisTick : Bool
deriving DecidableEq, Repr

/-- Per-step movement energy cost (simulation.ts lines 615-621); pow is
the Math.pow oracle. -/
def stepCostOf (pow : ℚ → ℚ → ℚ) (par : SimulationParams) (org : Organism) : ℚ :=
  max (pow (max 1 (org.pixels.length : ℚ)) par.movementEnergyCostExponent *
    par.movementEnergyCostMultiplier) (1/1000)

/-- Per-tick step budget (simulation.ts lines 622-634): the Math.min of
moveSpeed, energy-limited steps and stamina-limited steps. -/
def actualSteps (pow : ℚ → ℚ → ℚ) (par : SimulationParams) (org : Organism) : ℤ :=
  let stepCost := stepCostOf pow par org
  let energyReserve := max 0 par.movementEnergyReserve
  let availableEnergy := org.energy - energyReserve
  let energyLimitedSteps : ℤ :=
    if availableEnergy > 0 then Int.floor (availableEnergy / stepCost) else 0
  let staminaSteps : ℤ :=
    Int.floor (max 0 org.stamina / max (1/10000) par.staminaDrainPerStep)
  min (min (org.moveSpeed : ℤ) energyLimitedSteps) staminaSteps

/-- Initial MoveState list (simulation.ts lines 611-644). -/
def initMoveStates (pow : ℚ → ℚ → ℚ) (s : SimState) : List MoveState :=
  s.organisms.map (fun org =>
    { orgId := org.id
      dx := org.direction.1
      dy := org.direction.2
      stepCost := stepCostOf pow s.params org
      stepsRemaining := actualSteps pow s.params org
      movedThisTick := false })

/-- Count of organisms with a zero budget but a nonzero heading
(simulation.ts line 635). -/
def starvingInitial (pow : ℚ → ℚ → ℚ) (s : SimState) : ℕ :=
  (s.organisms.filter (fun org =>
    actualSteps pow s.params org ≤ 0 ∧
    (org.direction.1 ≠ 0 ∨ org.direction.2 ≠ 0))).length

/-- priorityOf (simulation.ts lines 646-649): moveSpeed shifted by 20, or
pixel count shifted by 10, or the low ten hash bits. -/
def priorityOf (tick : ℕ) (o : Organism) (nx ny : ℤ) : ℕ :=
  (o.moveSpeed <<< 20) ||| (o.pixels.length <<< 10) ||| (hash tick nx ny o.id &&& 1023)

/-- sortByPriority comparator (simulation.ts lines 651-658) as a signed
comparison value. -/
def cmpMove (tick : ℕ) (a b : Organism) : ℤ :=
  if b.moveSpeed ≠ a.moveSpeed then (b.moveSpeed : ℤ) - (a.moveSpeed : ℤ)
  else if b.pixels.length ≠ a.pixels.length then
    (b.pixels.length : ℤ) - (a.pixels.length : ℤ)
  else (hash tick a.eyeX a.eyeY a.id : ℤ) - (hash tick b.eyeX b.eyeY b.id : ℤ)

/-- Insertion step of the comparator sort. -/
def insertBy {α : Type} (le : α → α → Bool) (a : α) : List α → List α
  | [] => [a]
  | b :: rest => if le a b then a :: b :: rest else b :: insertBy le a rest

/-- Comparator sort modeling Array.prototype.sort; winner selection is
order-independent, so only the comparator ordering matters here. -/
def sortBy {α : Type} (le : α → α → Bool) (l : List α) : List α :=
  l.foldr (insertBy le) []

/-- INF static-reservation priority (simulation.ts line 676). -/
def INF : ℕ := 2147483647

/-- Static reservations of one microstep (simulation.ts lines 674-688):
cells of non-moving organisms, food cells and obstacle cells, all at
priority INF. -/
def buildReservations (s : SimState) (nonMovingIds : List ℕ) :
    List (Pos × Reservation) :=
  let r1 := s.organisms.foldl (fun acc org =>
    if nonMovingIds.any (fun i => i = org.id) then
      (amKeys org.pixels).foldl
        (fun a k => amSet a k { id := (org.id : ℤ), priority := INF }) acc
    else acc) []
  let r2 := s.foodPixels.foldl
    (fun a e => amSet a e.1 { id := -1, priority := INF }) r1
  s.obstacleKeys.foldl (fun a k => amSet a k { id := -2, priority := INF }) r2

/-- Per-cell movement proposal (simulation.ts lines 691-697). -/
structure Proposal where
  ox : ℤ
  oy : ℤ
  nx : ℤ
  ny : ℤ
deriving DecidableEq, Repr

/-- Contender entry of the proposal cell map. -/
structure Contender where
  orgId : ℕ
  priority : ℕ
deriving DecidableEq, Repr

/-- Lexicographic order on contenders used by the winner fold: by
priority, ties by organism id. -/
def contLe (a b : Contender) : Prop :=
  a.priority < b.priority ∨ (a.priority = b.priority ∧ a.orgId ≤ b.orgId)

/-- Proposal collection of one organism (simulation.ts lines 710-732):
one proposal per owned cell, stopping at the first out-of-bounds or
occupied destination (grid code neither 0 nor the own id); the Bool is
the valid flag of the source. -/
def collectProps (s : SimState) (orgId : ℕ) (dx dy : ℤ) :
    List Pos → List Proposal × Bool
  | [] => ([], true)
  | k :: rest =>
    match s.applyB (k.1 + dx) (k.2 + dy) with
    | none => ([], false)
    | some n =>
      let occ := s.grid n
      if occ ≠ 0 ∧ occ ≠ (orgId : ℤ) then ([], false)
      else
        let r := collectProps s orgId dx dy rest
        ({ ox := k.1, oy := k.2, nx := n.1, ny := n.2 } :: r.1, r.2)

/-- Push of one contender into the proposal cell map. -/
def cmInsert (cm : List (Pos × List Contender)) (cell : Pos) (c : Contender) :
    List (Pos × List Contender) :=
  if cm.any (fun e => e.1 = cell) then
    cm.map (fun e => if e.1 = cell then (e.1, e.2 ++ [c]) else e)
  else cm ++ [(cell, [c])]

/-- Proposal gathering over the sorted movers (simulation.ts lines
704-734).  Contender entries pushed before a validity break stay in the
cell map, exactly as in the source; only fully valid organisms enter the
by-organism proposal table. -/
def gather (s : SimState) (states : List MoveState) (movingSorted : List Organism) :
    List (ℕ × List Proposal) × List (Pos × List Contender) :=
  movingSorted.foldl (fun acc org =>
    let st := states.find? (fun m => m.orgId = org.id)
    let d : ℤ × ℤ := match st with | some m => (m.dx, m.dy) | none => (0, 0)
    let pr := collectProps s org.id d.1 d.2 (amKeys org.pixels)
    let cm2 := pr.1.foldl (fun cm p =>
      cmInsert cm (p.nx, p.ny)
        { orgId := org.id, priority := priorityOf s.tick org p.nx p.ny }) acc.2
    (if pr.2 then acc.1 ++ [(org.id, pr.1)] else acc.1, cm2)) ([], [])

/-- Winner fold over the contenders of one cell (simulation.ts lines
744-755): highest priority wins, ties won by the larger organism id. -/
def decideWinner (contenders : List Contender) : Option Contender :=
  contenders.foldl (fun w c =>
    match w with
    | none => some c
    | some wv =>
      if c.priority > wv.priority ∨ (c.priority = wv.priority ∧ c.orgId > wv.orgId) then
        some c
      else some wv) none

/-- Winner table of one microstep (simulation.ts lines 736-756): cells
under a static INF reservation admit no mover. -/
def computeWinners (reservations : List (Pos × Reservation))
    (cm : List (Pos × List Contender)) : List (Pos × ℕ) :=
  cm.foldl (fun acc e =>
    match amGet reservations e.1 with
    | some r =>
      if r.priority = INF then acc
      else
        match decideWinner e.2 with
        | some w => acc ++ [(e.1, w.orgId)]
        | none => acc
    | none =>
      match decideWinner e.2 with
      | some w => acc ++ [(e.1, w.orgId)]
      | none => acc) []

/-- Commit record (simulation.ts lines 759-764). -/
structure CommitRec where
  orgId : ℕ
  props : List Proposal
  oldPixels : List (Pos × ℕ)
deriving DecidableEq, Repr

/-- Commit selection (simulation.ts lines 765-781): an organism commits
only when every one of its per-cell proposals won its destination. -/
def computeCommits (byOrg : List (ℕ × List Proposal)) (winners : List (Pos × ℕ))
    (movingSorted : List Organism) : List CommitRec :=
  movingSorted.foldl (fun acc org =>
    match (byOrg.find? (fun e => e.1 = org.id)).map (fun e => e.2) with
    | none => acc
    | some props =>
      if props.length ≠ org.pixels.length then acc
      else if props.all (fun p => amGet winners (p.nx, p.ny) = some org.id) then
        acc ++ [{ orgId := org.id, props := props, oldPixels := org.pixels }]
      else acc) []

/-- Destination index set of all commits (simulation.ts line 780). -/
def destCells (commits : List CommitRec) : List Pos :=
  commits.flatMap (fun c => c.props.map (fun p => (p.nx, p.ny)))

/-- Source-cell clearing pass 6-1 (simulation.ts lines 783-793): old
cells that are not a destination of any commit revert to empty. -/
def clearSources (commits : List CommitRec) (dests : List Pos) (s : SimState) :
    SimState :=
  commits.foldl (fun acc c =>
    (amKeys c.oldPixels).foldl (fun a k =>
      if dests.any (fun q => q = k) then a
      else writeCell a k 0 0) acc) s

/-- Rebuilt pixel map of a committed organism: cleared, then one set per
proposal with the carried-over hit points. -/
def newPixelsOf (c : CommitRec) (totalCells : ℕ) : List (Pos × ℕ) :=
  c.props.foldl (fun acc p =>
    amSet acc (p.nx, p.ny) ((amGet c.oldPixels (p.ox, p.oy)).getD totalCells)) []

/-- Application pass 6-2 of one commit (simulation.ts lines 796-822):
write destinations, replace the pixel map, advance the eye by the
heading, charge energy and stamina, update the move state. -/
def applyCommit (x : SimState × List MoveState) (c : CommitRec) :
    SimState × List MoveState :=
  let s := x.1
  let states := x.2
  match getOrg s c.orgId with
  | none => (s, states)
  | some org =>
    let d : ℤ × ℤ := match states.find? (fun m => m.orgId = c.orgId) with
      | some m => (m.dx, m.dy)
      | none => (0, 0)
    let stepCost : ℚ := match states.find? (fun m => m.orgId = c.orgId) with
      | some m => m.stepCost
      | none => 0
    let s1 := c.props.foldl (fun a p =>
      let hp := (amGet c.oldPixels (p.ox, p.oy)).getD org.genome.totalCells
      writeCell a (p.nx, p.ny) (c.orgId : ℤ) hp) s
    let b := (s1.applyB (org.eyeX + d.1) (org.eyeY + d.2)).getD
      (org.eyeX + d.1, org.eyeY + d.2)
    let s2 := modifyOrg s1 c.orgId (fun o =>
      { o with pixels := newPixelsOf c org.genome.totalCells
               eyeX := b.1
               eyeY := b.2
               energy := o.energy - stepCost
               stamina := max 0 (o.stamina - s1.params.staminaDrainPerStep)
               movedThisTick := true })
    let states2 := states.map (fun m =>
      if m.orgId = c.orgId then
        { m with stepsRemaining := m.stepsRemaining - 1, movedThisTick := true }
      else m)
    (s2, states2)

/-- Mover test of a MoveState (simulation.ts lines 664-666). -/
def isMoving (m : MoveState) : Bool :=
  m.stepsRemaining > 0 ∧ (m.dx ≠ 0 ∨ m.dy ≠ 0)

/-- One microstep of the movement resolver (simulation.ts lines 662-822);
the ℕ result is the number of committed organisms. -/
def microstep (s : SimState) (states : List MoveState) :
    SimState × List MoveState × ℕ :=
  let moving := states.filter isMoving
  let nonMovingIds := (states.filter (fun m => ¬ isMoving m)).map (fun m => m.orgId)
  let reservations := buildReservations s nonMovingIds
  let movingOrgs := moving.filterMap (fun m => getOrg s m.orgId)
  let movingSorted := sortBy (fun a b => cmpMove s.tick a b ≤ 0) movingOrgs
  let g := gather s states movingSorted
  let winners := computeWinners reservations g.2
  let commits := computeCommits g.1 winners movingSorted
  let dests := destCells commits
  let s1 := clearSources commits dests s
  let r := commits.foldl applyCommit (s1, states)
  (r.1, r.2, commits.length)

/-- Microstep loop (simulation.ts lines 660-835): stop when no organism
can move; when movers remain but nobody committed, count them as starving
and zero every budget.  Fuel strictly exceeds the total remaining budget,
so the loop of the source always terminates within it. -/
def moveLoop : ℕ → SimState → List MoveState → SimState × List MoveState
  | 0, s, states => (s, states)
  | fuel + 1, s, states =>
    if (states.filter isMoving).isEmpty then (s, states)
    else
      let r := microstep s states
      if r.2.2 > 0 then moveLoop fuel r.1 r.2.1
      else
        let starv := (r.2.1.filter isMoving).length
        (bumpStarving r.1 starv,
          r.2.1.map (fun m => { m with stepsRemaining := 0 }))

/-- moveOrganisms (simulation.ts lines 597-850): microstep loop, then
stamina recovery for organisms that did not move (or have a zero
heading), then the debug counters. -/
def moveOrganisms (pow : ℚ → ℚ → ℚ) (s : SimState) : SimState :=
  let states := initMoveStates pow s
  let starving0 := starvingInitial pow s
  let fuel := (states.map (fun m => m.stepsRemaining.toNat)).sum + 1
  let r := moveLoop fuel s states
  let s1 := r.1
  let finalStates := r.2
  let s2 := finalStates.foldl (fun acc m =>
    if ¬ m.movedThisTick ∨ (m.dx = 0 ∧ m.dy = 0) then
      modifyOrg acc m.orgId (fun o =>
        { o with stamina := min acc.params.staminaMax (o.stamina + acc.params.staminaRecoveryPerTick) })
    else acc) s1
  bumpStarving (bumpMoving s2 (finalStates.filter (fun m => m.movedThisTick)).length) starving0

/-- Stamina range invariant: every registered organism keeps its stamina
inside the closed interval from zero to staminaMax. -/
def staminaInv (s : SimState) : Prop :=
  ∀ org ∈ s.organisms, 0 ≤ org.stamina ∧ org.stamina ≤ s.params.staminaMax

/-- Eye cell of an organism as a coordinate pair. -/
def eyePos (o : Organism) : Pos := (o.eyeX, o.eyeY)

/-- Reachability inside a cell set S under the 8-neighborhood of the
state (the boundary mode decides adjacency across edges): the root
reaches itself, and reaches any member of S adjacent to a reached
cell. -/
inductive ReachIn (s : SimState) (S : List Pos) (root : Pos) : Pos → Prop
  | refl : ReachIn s S root root
  | step (p q : Pos) : ReachIn s S root p → q ∈ s.nbrs p.1 p.2 → q ∈ S →
      ReachIn s S root q

/-- 8-connectivity of an organism: the eye is an owned cell and every
owned cell is reachable from the eye within the owned set. -/
def connectedOrg (s : SimState) (o : Organism) : Prop :=
  eyePos o ∈ amKeys o.pixels ∧
  ∀ k ∈ amKeys o.pixels, ReachIn s (amKeys o.pixels) (eyePos o) k

/-- Direction planning and flag reset at the top of step (simulation.ts
lines 1157-1161); the randomized perception policy chooseDirection
(simulation.ts lines 482-595), not the subject of any claim, is supplied
by the oracle. -/
def planPhase (O : Oracle) (s : SimState) : SimState :=
  (s.organisms.map (fun o => o.id)).foldl (fun acc id =>
    modifyOrg acc id (fun o =>
      { o with direction := O.chooseDir acc o, movedThisTick := false })) s

/-- Growth pass of step (simulation.ts lines 1164-1169): organisms that
did not move this tick attempt exactly one growth. -/
def growthPhase (s : SimState) : SimState :=
  (s.organisms.map (fun o => o.id)).foldl (fun acc id =>
    match getOrg acc id with
    | some o => if ¬ o.movedThisTick then (growOrganism acc id).1 else acc
    | none => acc) s

/-- step (simulation.ts lines 1153-1182): the full tick pipeline in
source order, ending with the verification / synchronization pass. -/
def step (O : Oracle) (s : SimState) : SimState :=
  let s1 := { s with tick := s.tick + 1, debugMoving := 0, debugGrowing := 0,
                     debugAttacking := 0, debugStarving := 0 }
  let s2 := planPhase O s1
  let s3 := moveOrganisms O.pow s2
  let s4 := growthPhase s3
  let s5 := combat O s4
  let s6 := if s5.tick % 5 = 0 then spawnFood O s5 else s5
  let s7 := absorbFood s6
  let s8 := metabolism s7
  let s9 := reproduce O s8
  let s10 := updateFoodDecay s9
  verifyAndSync s10

/-- Parameter fixture for concrete runs: a 4 x 4 wrap grid, integral
costs, food decay of five ticks and no food spawning. -/
def P0 : SimulationParams :=
  { gridSize := 4
    c2 := 100
    foodSpawnRate := 0
    mutationRate := 0
    reproductionThreshold := 1000
    maxMoveSpeed := 3
    viewRadius := 20
    energyTransferRatio := 7/10
    metabolismRate := 0
    movementEnergyReserve := 0
    movementEnergyCostMultiplier := 0
    growthEnergyCost := 12
    foodDecayTicks := 5
    foodDecayReturnRatio := 1
    attackEnergyCost := 1/2
    absorbEnergyCost := 1/5
    boundaryMode := .wrap
    movementEnergyCostExponent := 1
    staminaMax := 12
    staminaRecoveryPerTick := 3/5
    staminaDrainPerStep := 1 }

/-- Empty simulation state over given size and params (constructor state
with terrain disabled, simulation.ts lines 92-109). -/
def emptyState (m : ℕ) (par : SimulationParams) : SimState :=
  { gridSize := m
    params := par
    grid := fun _ => 0
    pixelHP := fun _ => 0
    organisms := []
    foodPixels := []
    obstacleKeys := []
    nextID := 1
    tick := 0
    envEnergy := 2000
    debugMoving := 0
    debugGrowing := 0
    debugAttacking := 0
    debugStarving := 0 }

/-- Single-cell genome fixture. -/
def G1 : Genome := { pattern := [1], size := 1, totalCells := 1 }

/-- Create rolls fixture (all draws zero). -/
def R0 : CreateRolls :=
  { genGenome := G1, moveSpeedRoll := 0, hungerRoll := 0, dirRoll := 0 }

/-- Oracle fixture whose draws are all constant; concrete runs below use
states without organisms or with behavior independent of these draws. -/
def O0 : Oracle :=
  { pow := fun _ _ => 1
    chooseDir := fun _ _ => (0, 0)
    eqSizeRoll := fun _ _ => false
    pickRoll := fun _ => 0
    spawnRoll := fun _ => (0, 0)
    reproSkip := fun _ => true
    shuffledDirs := fun _ => []
    mutate := fun g => g
    createRolls := fun _ => R0
    speedDelta := fun _ => 0
    hungerJitter := fun _ => 0 }

/-- Closed-boundary fixture on a 3 x 3 grid. -/
def Pc : SimulationParams := { P0 with boundaryMode := .closed, gridSize := 3 }

/-- Empty closed-boundary state. -/
def Cc : SimState := emptyState 3 Pc

/-- Destroyed-organism fixture of the scenario: eye (5,5), single owned
cell (6,5) after losing the eye cell. -/
def O8 : Organism :=
  { id := 9
    eyeX := 5
    eyeY := 5
    pixels := [((6, 5), 1)]
    energy := 100
    moveSpeed := 1
    viewRadius := 5
    hunger := 1/2
    direction := (0, 0)
    genome := G1
    growthStage := 0
    speciesMask := 0
    age := 0
    stuckCounter := 0
    stamina := 12
    movedThisTick := false }

/-- State of the C8 scenario on an 8 x 8 wrap grid. -/
def S8 : SimState :=
  { emptyState 8 { P0 with gridSize := 8 } with
    organisms := [O8]
    grid := updFn (fun _ => 0) (6, 5) 9 }

/-- Attacker fixture: single cell at (0,0), energy 100. -/
def AOrg : Organism :=
  { id := 1
    eyeX := 0
    eyeY := 0
    pixels := [((0, 0), 3)]
    energy := 100
    moveSpeed := 1
    viewRadius := 5
    hunger := 1/2
    direction := (0, 0)
    genome := G1
    growthStage := 0
    speciesMask := 0
    age := 0
    stuckCounter := 0
    stamina := 12
    movedThisTick := false }

/-- Target fixture: single cell at (2,2) with hit points 1, different
species mask. -/
def TOrg : Organism :=
  { AOrg with id := 2, eyeX := 2, eyeY := 2, pixels := [((2, 2), 1)], speciesMask := 1 }

/-- Combat fixture state holding the attacker and the target. -/
def SA : SimState :=
  { emptyState 4 P0 with
    organisms := [AOrg, TOrg]
    grid := fun p => if p = (0, 0) then 1 else if p = (2, 2) then 2 else 0
    pixelHP := fun p => if p = (0, 0) then 3 else if p = (2, 2) then 1 else 0 }

/-- Feeding fixture state: the attacker next to a food cell at (1, 1). -/
def SF : SimState :=
  { emptyState 4 P0 with
    organisms := [AOrg]
    grid := fun p => if p = (0, 0) then 1 else if p = (1, 1) then -1 else 0
    pixelHP := fun p => if p = (0, 0) then 3 else if p = (1, 1) then 1 else 0
    foodPixels := [((1, 1), 5)] }

/-- Two-cell connected organism fixture. -/
def C2Org : Organism :=
  { AOrg with id := 3, eyeX := 1, eyeY := 1, pixels := [((1, 1), 1), ((2, 1), 1)] }

/-- State fixture of the connectivity check. -/
def SC2 : SimState :=
  { emptyState 4 P0 with
    organisms := [C2Org]
    grid := fun p => if p = (1, 1) ∨ p = (2, 1) then 3 else 0
    pixelHP := fun p => if p = (1, 1) ∨ p = (2, 1) then 1 else 0 }

/-- Zero-budget mover fixture: stamina zero forces an empty step budget
even though the heading is nonzero. -/
def ZOrg : Organism := { AOrg with stamina := 0, direction := (1, 0) }

/-- State fixture of the zero-budget scenario. -/
def SZ : SimState :=
  { emptyState 4 P0 with
    organisms := [ZOrg]
    grid := fun p => if p = (0, 0) then 1 else 0
    pixelHP := fun p => if p = (0, 0) then 3 else 0 }

/-- Parameter fixture of the stamina trace: a negative per-step stamina
drain. -/
def P10 : SimulationParams := { P0 with staminaDrainPerStep := -5 }

/-- Mover fixture: the single-cell organism heading right. -/
def MOrg : Organism := { AOrg with direction := (1, 0) }

/-- State fixture of the stamina trace: one mover under the negative
drain parameters, stamina at the maximum 12. -/
def S10 : SimState :=
  { emptyState 4 P10 with
    organisms := [MOrg]
    grid := fun p => if p = (0, 0) then 1 else 0
    pixelHP := fun p => if p = (0, 0) then 3 else 0 }

/-- Parameter fixture of the food-decay trace: the 4 x 4 wrap grid with a
food spawn rate making the pool 2000 spawn exactly one food pixel. -/
def P7 : SimulationParams := { P0 with foodSpawnRate := 1/20 }

/-- State fixture of the food-decay trace: empty world at tick 4, so the
next step is the spawning tick 5. -/
def S7 : SimState := { emptyState 4 P7 with tick := 4 }

/-- Iterated ticks. -/
def stepsN (O : Oracle) : ℕ → SimState → SimState
  | 0, s => s
  | n + 1, s => stepsN O n (step O s)

/-- Occupancy test of the 3 x 3 creation scan: some in-bounds cell of the
block centered on b is non-empty (out-of-bounds offsets are skipped). -/
def creationBlocked (s : SimState) (b : Pos) : Bool :=
  blockDeltas.any (fun d =>
    match s.applyB (b.1 + d.1) (b.2 + d.2) with
    | none => false
    | some p => s.grid p ≠ 0)

theorem createOrganism_eq_def (s : SimState) (rolls : CreateRolls) (x y : ℤ)
    (genome : Option Genome) (energy : Option ℚ) :
    createOrganism s rolls x y genome energy =
    match s.applyB x y with
    | none => (none, s)
    | some b =>
      if creationBlocked s b then (none, s)
      else
        let id := s.nextID
        let gen := genome.getD rolls.genGenome
        let org : Organism :=
          { id := id
            eyeX := b.1
            eyeY := b.2
            pixels := amSet [] b gen.totalCells
            energy := energy.getD 400
            moveSpeed := 1 + rolls.moveSpeedRoll % max 1 s.params.maxMoveSpeed
            viewRadius := s.params.viewRadius
            hunger := 1/2 + rolls.hungerRoll * (3/10)
            direction := randomDirection rolls.dirRoll
            genome := gen
            growthStage := 0
            speciesMask := speciesMaskFromGenome gen
            age := 0
            stuckCounter := 0
            stamina := s.params.staminaMax
            movedThisTick := false }
        (some org,
          { s with
            grid := updFn s.grid b (id : ℤ)
            pixelHP := updFn s.pixelHP b gen.totalCells
            organisms := s.organisms ++ [org]
            nextID := s.nextID + 1 }) := by
  unfold createOrganism creationBlocked
  cases h : s.applyB x y with
  | none => rfl
  | some b => cases b with
    | mk bx by_ => rfl

/-- Claim C4, counterexample to the statement as frozen: with the closed
boundary, the neighbor (-1,-1) of the target (0,0) is out of bounds, yet
createOrganism succeeds instead of returning null, because the source
skips out-of-bounds neighbors with a continue. -/
theorem C4_counterexample :
    (Cc.applyB (0 + (-1)) (0 + (-1)) = none) ∧
    ((createOrganism Cc R0 0 0 (some G1) (some 400)).1.isSome = true) := by
  constructor
  · decide
  · decide

/-- Claim C4 as amended: createOrganism returns null exactly when the
target is out of bounds or some in-bounds cell of the 3 x 3 block around
the target is non-empty (out-of-bounds neighbors are skipped); failure
leaves the state unchanged, and success places exactly one owned cell at
the target with grid code set to the fresh id and hit points seeded to
the genome totalCells, appends the organism to the registry and returns
it. -/
theorem C4_createOrganism_spec (s : SimState) (rolls : CreateRolls) (x y : ℤ)
    (g : Genome) (en : ℚ) :
    (s.applyB x y = none → createOrganism s rolls x y (some g) (some en) = (none, s)) ∧
    (∀ b, s.applyB x y = some b →
      ((createOrganism s rolls x y (some g) (some en)).1 = none ↔
        creationBlocked s b = true)) ∧
    ((createOrganism s rolls x y (some g) (some en)).1 = none →
      (createOrganism s rolls x y (some g) (some en)).2 = s) ∧
    (∀ org s2, createOrganism s rolls x y (some g) (some en) = (some org, s2) →
      ∃ b, s.applyB x y = some b ∧ creationBlocked s b = false ∧
        org.id = s.nextID ∧ org.eyeX = b.1 ∧ org.eyeY = b.2 ∧
        org.pixels = [(b, g.totalCells)] ∧ org.energy = en ∧ org.genome = g ∧
        org.growthStage = 0 ∧ org.stamina = s.params.staminaMax ∧
        s2.grid = updFn s.grid b (s.nextID : ℤ) ∧
        s2.pixelHP = updFn s.pixelHP b g.totalCells ∧
        s2.organisms = s.organisms ++ [org] ∧
        s2.nextID = s.nextID + 1 ∧
        s2.foodPixels = s.foodPixels ∧
        s2.envEnergy = s.envEnergy) := by
  have hdef := createOrganism_eq_def s rolls x y (some g) (some en)
  cases h : s.applyB x y with
  | none =>
    rw [h] at hdef
    have hdef2 : createOrganism s rolls x y (some g) (some en) = (none, s) :=
      hdef.trans rfl
    refine ⟨fun _ => hdef2, ?_, ?_, ?_⟩
    · intro b hb; exact Option.noConfusion hb
    · intro _; rw [hdef2]
    · intro org s2 hco; rw [hdef2] at hco; simp at hco
  | some b =>
    rw [h] at hdef
    by_cases hc : creationBlocked s b = true
    · simp only [hc, if_true] at hdef
      refine ⟨?_, ?_, ?_, ?_⟩
      · intro hn; exact Option.noConfusion hn
      · intro b2 hb2
        simp only [Option.some.injEq] at hb2
        subst hb2
        simp [hdef, hc]
      · intro _; rw [hdef]
      · intro org s2 hco; rw [hdef] at hco; simp at hco
    · simp only [Bool.not_eq_true] at hc
      simp only [hc, Bool.false_eq_true, if_false] at hdef
      refine ⟨?_, ?_, ?_, ?_⟩
      · intro hn; exact Option.noConfusion hn
      · intro b2 hb2
        simp only [Option.some.injEq] at hb2
        subst hb2
        simp [hdef, hc]
      · intro hn; rw [hdef] at hn; simp at hn
      · intro org s2 hco
        rw [hdef] at hco
        simp only [Prod.mk.injEq, Option.some.injEq] at hco
        obtain ⟨horg, hs2⟩ := hco
        refine ⟨b, rfl, hc, ?_⟩
        subst horg
        subst hs2
        refine ⟨rfl, rfl, rfl, ?_, rfl, rfl, rfl, rfl, rfl, rfl, rfl, rfl, rfl, rfl⟩
        simp [amSet]

/-- Witness for C4: the amended theorem applied at a concrete closed
state, target out of bounds. -/
theorem C4_createOrganism_spec_witness :
    createOrganism Cc R0 5 0 (some G1) (some 400) = (none, Cc) :=
  (C4_createOrganism_spec Cc R0 5 0 G1 400).1 (by decide)

theorem amHas_iff {β : Type} (l : List (Pos × β)) (k : Pos) :
    amHas l k = true ↔ k ∈ amKeys l := by
  constructor
  · intro h
    rcases List.any_eq_true.mp h with ⟨e, he, hk⟩
    exact List.mem_map.mpr ⟨e, he, by simpa using hk⟩
  · intro h
    rcases List.mem_map.mp h with ⟨e, he, hk⟩
    exact List.any_eq_true.mpr ⟨e, he, by simpa using hk⟩

theorem amGet_cons_pos {β : Type} (e : Pos × β) (rest : List (Pos × β)) (k : Pos)
    (he : e.1 = k) : amGet (e :: rest) k = some e.2 := by
  unfold amGet
  rw [List.find?_cons_of_pos _ (by simpa using he)]
  rfl

theorem amGet_cons_neg {β : Type} (e : Pos × β) (rest : List (Pos × β)) (k : Pos)
    (he : ¬ e.1 = k) : amGet (e :: rest) k = amGet rest k := by
  unfold amGet
  rw [List.find?_cons_of_neg _ (by simpa using he)]

theorem amGet_setmap_self {β : Type} (k : Pos) (v : β) (l : List (Pos × β))
    (ha : l.any (fun e => e.1 = k) = true) :
    amGet (l.map (fun e => if e.1 = k then (k, v) else e)) k = some v := by
  induction l with
  | nil => cases ha
  | cons e rest ih =>
    rw [List.map_cons]
    by_cases he : e.1 = k
    · rw [if_pos he, amGet_cons_pos _ _ _ rfl]
    · rw [if_neg he, amGet_cons_neg _ _ _ he]
      simp only [List.any_cons, Bool.or_eq_true, decide_eq_true_eq] at ha
      rcases ha with ha | ha
      · exact absurd ha he
      · exact ih ha

theorem amGet_setmap_ne {β : Type} (k k2 : Pos) (v : β) (h : k2 ≠ k)
    (l : List (Pos × β)) :
    amGet (l.map (fun e => if e.1 = k then (k, v) else e)) k2 = amGet l k2 := by
  induction l with
  | nil => rfl
  | cons e rest ih =>
    rw [List.map_cons]
    by_cases he : e.1 = k
    · have h1 : ¬ ((k, v) : Pos × β).1 = k2 := by simpa using (Ne.symm h)
      have h2 : ¬ e.1 = k2 := by rw [he]; simpa using (Ne.symm h)
      rw [if_pos he, amGet_cons_neg _ _ _ h1, amGet_cons_neg _ _ _ h2]
      exact ih
    · rw [if_neg he]
      by_cases he2 : e.1 = k2
      · rw [amGet_cons_pos _ _ _ he2, amGet_cons_pos _ _ _ he2]
      · rw [amGet_cons_neg _ _ _ he2, amGet_cons_neg _ _ _ he2]
        exact ih

theorem amGet_append_single_self {β : Type} (k : Pos) (v : β) (l : List (Pos × β))
    (ha : l.any (fun e => e.1 = k) = false) :
    amGet (l ++ [(k, v)]) k = some v := by
  induction l with
  | nil => exact amGet_cons_pos _ _ _ rfl
  | cons e rest ih =>
    simp only [List.any_cons, Bool.or_eq_false_iff, decide_eq_false_iff_not] at ha
    rw [List.cons_append, amGet_cons_neg _ _ _ ha.1]
    exact ih (by simpa using ha.2)

theorem amGet_append_single_ne {β : Type} (k k2 : Pos) (v : β) (h : k2 ≠ k)
    (l : List (Pos × β)) :
    amGet (l ++ [(k, v)]) k2 = amGet l k2 := by
  induction l with
  | nil =>
    have h1 : ¬ ((k, v) : Pos × β).1 = k2 := by simpa using (Ne.symm h)
    rw [List.nil_append, amGet_cons_neg _ _ _ h1]
  | cons e rest ih =>
    by_cases he2 : e.1 = k2
    · rw [List.cons_append, amGet_cons_pos _ _ _ he2, amGet_cons_pos _ _ _ he2]
    · rw [List.cons_append, amGet_cons_neg _ _ _ he2, amGet_cons_neg _ _ _ he2]
      exact ih

theorem amGet_amSet_self {β : Type} (l : List (Pos × β)) (k : Pos) (v : β) :
    amGet (amSet l k v) k = some v := by
  unfold amSet
  by_cases h : l.any (fun e => e.1 = k) = true
  · rw [if_pos h]; exact amGet_setmap_self k v l h
  · rw [if_neg h]
    exact amGet_append_single_self k v l (by simpa only [Bool.not_eq_true] using h)

theorem amGet_amSet_ne {β : Type} (l : List (Pos × β)) (k k2 : Pos) (v : β)
    (h : k2 ≠ k) : amGet (amSet l k v) k2 = amGet l k2 := by
  unfold amSet
  by_cases ha : l.any (fun e => e.1 = k) = true
  · rw [if_pos ha]; exact amGet_setmap_ne k k2 v h l
  · rw [if_neg ha]; exact amGet_append_single_ne k k2 v h l

theorem amGet_eq_none_of_not_mem {β : Type} (l : List (Pos × β)) (k : Pos)
    (h : k ∉ amKeys l) : amGet l k = none := by
  induction l with
  | nil => rfl
  | cons e rest ih =>
    simp only [amKeys, List.map_cons, List.mem_cons, not_or] at h
    have he : ¬ e.1 = k := fun hh => h.1 hh.symm
    rw [amGet_cons_neg _ _ _ he]
    exact ih (by simpa [amKeys] using h.2)

theorem amGet_mem {β : Type} (l : List (Pos × β)) (k : Pos) (v : β)
    (h : amGet l k = some v) : (k, v) ∈ l := by
  induction l with
  | nil => simp [amGet] at h
  | cons e rest ih =>
    by_cases he : e.1 = k
    · rw [amGet_cons_pos _ _ _ he] at h
      simp only [Option.some.injEq] at h
      obtain ⟨k1, v1⟩ := e
      simp only at he h
      subst he
      subst h
      exact List.mem_cons_self _ _
    · rw [amGet_cons_neg _ _ _ he] at h
      exact List.mem_cons_of_mem _ (ih h)

theorem modifyOrg_grid (s : SimState) (id : ℕ) (f : Organism → Organism) :
    (modifyOrg s id f).grid = s.grid := rfl

theorem modifyOrg_pixelHP (s : SimState) (id : ℕ) (f : Organism → Organism) :
    (modifyOrg s id f).pixelHP = s.pixelHP := rfl

theorem modifyOrg_foodPixels (s : SimState) (id : ℕ) (f : Organism → Organism) :
    (modifyOrg s id f).foodPixels = s.foodPixels := rfl

theorem modifyOrg_envEnergy (s : SimState) (id : ℕ) (f : Organism → Organism) :
    (modifyOrg s id f).envEnergy = s.envEnergy := rfl

theorem modifyOrg_params (s : SimState) (id : ℕ) (f : Organism → Organism) :
    (modifyOrg s id f).params = s.params := rfl

theorem modifyOrg_gridSize (s : SimState) (id : ℕ) (f : Organism → Organism) :
    (modifyOrg s id f).gridSize = s.gridSize := rfl

attribute [simp] modifyOrg_grid modifyOrg_pixelHP modifyOrg_foodPixels
  modifyOrg_envEnergy modifyOrg_params modifyOrg_gridSize

@[simp] theorem withEnv_envEnergy (s : SimState) (v : ℚ) : (withEnv s v).envEnergy = v := rfl

@[simp] theorem withEnv_grid (s : SimState) (v : ℚ) : (withEnv s v).grid = s.grid := rfl

@[simp] theorem withEnv_pixelHP (s : SimState) (v : ℚ) : (withEnv s v).pixelHP = s.pixelHP := rfl

@[simp] theorem withEnv_foodPixels (s : SimState) (v : ℚ) : (withEnv s v).foodPixels = s.foodPixels := rfl

@[simp] theorem withEnv_params (s : SimState) (v : ℚ) : (withEnv s v).params = s.params := rfl

@[simp] theorem withEnv_organisms (s : SimState) (v : ℚ) : (withEnv s v).organisms = s.organisms := rfl

@[simp] theorem withEnv_gridSize (s : SimState) (v : ℚ) : (withEnv s v).gridSize = s.gridSize := rfl

@[simp] theorem getOrg_withEnv (s : SimState) (v : ℚ) (i : ℕ) : getOrg (withEnv s v) i = getOrg s i := rfl

@[simp] theorem withGrid_grid (s : SimState) (g : Pos → ℤ) : (withGrid s g).grid = g := rfl

@[simp] theorem withGrid_envEnergy (s : SimState) (g : Pos → ℤ) : (withGrid s g).envEnergy = s.envEnergy := rfl

@[simp] theorem withGrid_pixelHP (s : SimState) (g : Pos → ℤ) : (withGrid s g).pixelHP = s.pixelHP := rfl

@[simp] theorem withGrid_foodPixels (s : SimState) (g : Pos → ℤ) : (withGrid s g).foodPixels = s.foodPixels := rfl

@[simp] theorem withGrid_params (s : SimState) (g : Pos → ℤ) : (withGrid s g).params = s.params := rfl

@[simp] theorem withGrid_organisms (s : SimState) (g : Pos → ℤ) : (withGrid s g).organisms = s.organisms := rfl

@[simp] theorem withGrid_gridSize (s : SimState) (g : Pos → ℤ) : (withGrid s g).gridSize = s.gridSize := rfl

@[simp] theorem getOrg_withGrid (s : SimState) (g : Pos → ℤ) (i : ℕ) : getOrg (withGrid s g) i = getOrg s i := rfl

@[simp] theorem withHP_pixelHP (s : SimState) (h : Pos → ℕ) : (withHP s h).pixelHP = h := rfl

@[simp] theorem withHP_grid (s : SimState) (h : Pos → ℕ) : (withHP s h).grid = s.grid := rfl

@[simp] theorem withHP_envEnergy (s : SimState) (h : Pos → ℕ) : (withHP s h).envEnergy = s.envEnergy := rfl

@[simp] theorem withHP_foodPixels (s : SimState) (h : Pos → ℕ) : (withHP s h).foodPixels = s.foodPixels := rfl

@[simp] theorem withHP_params (s : SimState) (h : Pos → ℕ) : (withHP s h).params = s.params := rfl

@[simp] theorem withHP_organisms (s : SimState) (h : Pos → ℕ) : (withHP s h).organisms = s.organisms := rfl

@[simp] theorem withHP_gridSize (s : SimState) (h : Pos → ℕ) : (withHP s h).gridSize = s.gridSize := rfl

@[simp] theorem getOrg_withHP (s : SimState) (h : Pos → ℕ) (i : ℕ) : getOrg (withHP s h) i = getOrg s i := rfl

@[simp] theorem withFood_foodPixels (s : SimState) (l : List (Pos × ℤ)) : (withFood s l).foodPixels = l := rfl

@[simp] theorem withFood_grid (s : SimState) (l : List (Pos × ℤ)) : (withFood s l).grid = s.grid := rfl

@[simp] theorem withFood_pixelHP (s : SimState) (l : List (Pos × ℤ)) : (withFood s l).pixelHP = s.pixelHP := rfl

@[simp] theorem withFood_envEnergy (s : SimState) (l : List (Pos × ℤ)) : (withFood s l).envEnergy = s.envEnergy := rfl

@[simp] theorem withFood_params (s : SimState) (l : List (Pos × ℤ)) : (withFood s l).params = s.params := rfl

@[simp] theorem withFood_organisms (s : SimState) (l : List (Pos × ℤ)) : (withFood s l).organisms = s.organisms := rfl

@[simp] theorem withFood_gridSize (s : SimState) (l : List (Pos × ℤ)) : (withFood s l).gridSize = s.gridSize := rfl

@[simp] theorem getOrg_withFood (s : SimState) (l : List (Pos × ℤ)) (i : ℕ) : getOrg (withFood s l) i = getOrg s i := rfl

@[simp] theorem writeCell_grid (s : SimState) (p : Pos) (c : ℤ) (hp : ℕ) : (writeCell s p c hp).grid = updFn s.grid p c := rfl

@[simp] theorem writeCell_pixelHP (s : SimState) (p : Pos) (c : ℤ) (hp : ℕ) : (writeCell s p c hp).pixelHP = updFn s.pixelHP p hp := rfl

@[simp] theorem writeCell_envEnergy (s : SimState) (p : Pos) (c : ℤ) (hp : ℕ) : (writeCell s p c hp).envEnergy = s.envEnergy := rfl

@[simp] theorem writeCell_foodPixels (s : SimState) (p : Pos) (c : ℤ) (hp : ℕ) : (writeCell s p c hp).foodPixels = s.foodPixels := rfl

@[simp] theorem writeCell_params (s : SimState) (p : Pos) (c : ℤ) (hp : ℕ) : (writeCell s p c hp).params = s.params := rfl

@[simp] theorem writeCell_organisms (s : SimState) (p : Pos) (c : ℤ) (hp : ℕ) : (writeCell s p c hp).organisms = s.organisms := rfl

@[simp] theorem writeCell_gridSize (s : SimState) (p : Pos) (c : ℤ) (hp : ℕ) : (writeCell s p c hp).gridSize = s.gridSize := rfl

@[simp] theorem getOrg_writeCell (s : SimState) (p : Pos) (c : ℤ) (hp : ℕ) (i : ℕ) : getOrg (writeCell s p c hp) i = getOrg s i := rfl

@[simp] theorem bumpGrowing_grid (s : SimState) : (bumpGrowing s).grid = s.grid := rfl

@[simp] theorem bumpGrowing_pixelHP (s : SimState) : (bumpGrowing s).pixelHP = s.pixelHP := rfl

@[simp] theorem bumpGrowing_envEnergy (s : SimState) : (bumpGrowing s).envEnergy = s.envEnergy := rfl

@[simp] theorem bumpGrowing_foodPixels (s : SimState) : (bumpGrowing s).foodPixels = s.foodPixels := rfl

@[simp] theorem bumpGrowing_params (s : SimState) : (bumpGrowing s).params = s.params := rfl

@[simp] theorem bumpGrowing_organisms (s : SimState) : (bumpGrowing s).organisms = s.organisms := rfl

@[simp] theorem bumpGrowing_gridSize (s : SimState) : (bumpGrowing s).gridSize = s.gridSize := rfl

@[simp] theorem getOrg_bumpGrowing (s : SimState) (i : ℕ) : getOrg (bumpGrowing s) i = getOrg s i := rfl

@[simp] theorem bumpAttacking_grid (s : SimState) : (bumpAttacking s).grid = s.grid := rfl

@[simp] theorem bumpAttacking_pixelHP (s : SimState) : (bumpAttacking s).pixelHP = s.pixelHP := rfl

@[simp] theorem bumpAttacking_envEnergy (s : SimState) : (bumpAttacking s).envEnergy = s.envEnergy := rfl

@[simp] theorem bumpAttacking_foodPixels (s : SimState) : (bumpAttacking s).foodPixels = s.foodPixels := rfl

@[simp] theorem bumpAttacking_params (s : SimState) : (bumpAttacking s).params = s.params := rfl

@[simp] theorem bumpAttacking_organisms (s : SimState) : (bumpAttacking s).organisms = s.organisms := rfl

@[simp] theorem bumpAttacking_gridSize (s : SimState) : (bumpAttacking s).gridSize = s.gridSize := rfl

@[simp] theorem getOrg_bumpAttacking (s : SimState) (i : ℕ) : getOrg (bumpAttacking s) i = getOrg s i := rfl

@[simp] theorem bumpStarving_grid (s : SimState) (n : ℕ) : (bumpStarving s n).grid = s.grid := rfl

@[simp] theorem bumpStarving_pixelHP (s : SimState) (n : ℕ) : (bumpStarving s n).pixelHP = s.pixelHP := rfl

@[simp] theorem bumpStarving_envEnergy (s : SimState) (n : ℕ) : (bumpStarving s n).envEnergy = s.envEnergy := rfl

@[simp] theorem bumpStarving_foodPixels (s : SimState) (n : ℕ) : (bumpStarving s n).foodPixels = s.foodPixels := rfl

@[simp] theorem bumpStarving_params (s : SimState) (n : ℕ) : (bumpStarving s n).params = s.params := rfl

@[simp] theorem bumpStarving_organisms (s : SimState) (n : ℕ) : (bumpStarving s n).organisms = s.organisms := rfl

@[simp] theorem bumpStarving_gridSize (s : SimState) (n : ℕ) : (bumpStarving s n).gridSize = s.gridSize := rfl

@[simp] theorem getOrg_bumpStarving (s : SimState) (n : ℕ) (i : ℕ) : getOrg (bumpStarving s n) i = getOrg s i := rfl

@[simp] theorem bumpMoving_grid (s : SimState) (n : ℕ) : (bumpMoving s n).grid = s.grid := rfl

@[simp] theorem bumpMoving_pixelHP (s : SimState) (n : ℕ) : (bumpMoving s n).pixelHP = s.pixelHP := rfl

@[simp] theorem bumpMoving_envEnergy (s : SimState) (n : ℕ) : (bumpMoving s n).envEnergy = s.envEnergy := rfl

@[simp] theorem bumpMoving_foodPixels (s : SimState) (n : ℕ) : (bumpMoving s n).foodPixels = s.foodPixels := rfl

@[simp] theorem bumpMoving_params (s : SimState) (n : ℕ) : (bumpMoving s n).params = s.params := rfl

@[simp] theorem bumpMoving_organisms (s : SimState) (n : ℕ) : (bumpMoving s n).organisms = s.organisms := rfl

@[simp] theorem bumpMoving_gridSize (s : SimState) (n : ℕ) : (bumpMoving s n).gridSize = s.gridSize := rfl

@[simp] theorem getOrg_bumpMoving (s : SimState) (n : ℕ) (i : ℕ) : getOrg (bumpMoving s n) i = getOrg s i := rfl

theorem getOrg_modifyOrg_ne (s : SimState) (id id2 : ℕ) (f : Organism → Organism)
    (hf : ∀ o, (f o).id = o.id) (h : id2 ≠ id) :
    getOrg (modifyOrg s id f) id2 = getOrg s id2 := by
  unfold getOrg modifyOrg
  simp only
  induction s.organisms with
  | nil => rfl
  | cons o rest ih =>
    rw [List.map_cons]
    by_cases ho : o.id = id
    · rw [if_pos ho]
      have h1 : ¬ (f o).id = id2 := by
        rw [hf o, ho]
        exact fun hh => h hh.symm
      have h2 : ¬ o.id = id2 := by
        rw [ho]
        exact fun hh => h hh.symm
      rw [List.find?_cons_of_neg _ (by simpa using h1),
          List.find?_cons_of_neg _ (by simpa using h2)]
      exact ih
    · rw [if_neg ho]
      by_cases h2 : o.id = id2
      · rw [List.find?_cons_of_pos _ (by simpa using h2),
            List.find?_cons_of_pos _ (by simpa using h2)]
      · rw [List.find?_cons_of_neg _ (by simpa using h2),
            List.find?_cons_of_neg _ (by simpa using h2)]
        exact ih

theorem getOrg_modifyOrg_self (s : SimState) (id : ℕ) (f : Organism → Organism)
    (hf : ∀ o, (f o).id = o.id) :
    getOrg (modifyOrg s id f) id = (getOrg s id).map f := by
  unfold getOrg modifyOrg
  simp only
  induction s.organisms with
  | nil => rfl
  | cons o rest ih =>
    rw [List.map_cons]
    by_cases ho : o.id = id
    · rw [if_pos ho]
      rw [List.find?_cons_of_pos _ (by simp [hf o, ho]),
          List.find?_cons_of_pos _ (by simpa using ho)]
      rfl
    · rw [if_neg ho]
      rw [List.find?_cons_of_neg _ (by simpa using ho),
          List.find?_cons_of_neg _ (by simpa using ho)]
      exact ih

theorem foodify_foldl_organisms (l : List Pos) (s : SimState) :
    (l.foldl foodifyCell s).organisms = s.organisms := by
  induction l generalizing s with
  | nil => rfl
  | cons k rest ih => simpa [foodifyCell] using ih (foodifyCell s k)

theorem foodify_foldl_envEnergy (l : List Pos) (s : SimState) :
    (l.foldl foodifyCell s).envEnergy = s.envEnergy := by
  induction l generalizing s with
  | nil => rfl
  | cons k rest ih => simpa [foodifyCell] using ih (foodifyCell s k)

theorem foodify_foldl_params (l : List Pos) (s : SimState) :
    (l.foldl foodifyCell s).params = s.params := by
  induction l generalizing s with
  | nil => rfl
  | cons k rest ih => simpa [foodifyCell] using ih (foodifyCell s k)

theorem foodify_foldl_gridSize (l : List Pos) (s : SimState) :
    (l.foldl foodifyCell s).gridSize = s.gridSize := by
  induction l generalizing s with
  | nil => rfl
  | cons k rest ih => simpa [foodifyCell] using ih (foodifyCell s k)

theorem foodify_foldl_grid_notin (l : List Pos) (s : SimState) (p : Pos)
    (h : p ∉ l) : (l.foldl foodifyCell s).grid p = s.grid p := by
  induction l generalizing s with
  | nil => rfl
  | cons k rest ih =>
    simp only [List.mem_cons, not_or] at h
    rw [List.foldl_cons, ih _ h.2]
    simp [foodifyCell, updFn, h.1]

theorem foodify_foldl_pixelHP_notin (l : List Pos) (s : SimState) (p : Pos)
    (h : p ∉ l) : (l.foldl foodifyCell s).pixelHP p = s.pixelHP p := by
  induction l generalizing s with
  | nil => rfl
  | cons k rest ih =>
    simp only [List.mem_cons, not_or] at h
    rw [List.foldl_cons, ih _ h.2]
    simp [foodifyCell, updFn, h.1]

theorem foodify_foldl_foodGet_notin (l : List Pos) (s : SimState) (p : Pos)
    (h : p ∉ l) : amGet (l.foldl foodifyCell s).foodPixels p = amGet s.foodPixels p := by
  induction l generalizing s with
  | nil => rfl
  | cons k rest ih =>
    simp only [List.mem_cons, not_or] at h
    rw [List.foldl_cons, ih _ h.2]
    simp only [foodifyCell]
    exact amGet_amSet_ne _ _ _ _ h.1

theorem foodify_foldl_grid_in (l : List Pos) (s : SimState) (p : Pos)
    (h : p ∈ l) : (l.foldl foodifyCell s).grid p = -1 := by
  induction l generalizing s with
  | nil => cases h
  | cons k rest ih =>
    by_cases hr : p ∈ rest
    · rw [List.foldl_cons]; exact ih _ hr
    · have hk : p = k := by
        rcases List.mem_cons.mp h with h1 | h1
        · exact h1
        · exact absurd h1 hr
      rw [List.foldl_cons, foodify_foldl_grid_notin _ _ _ hr]
      simp [foodifyCell, updFn, hk]

theorem foodify_foldl_pixelHP_in (l : List Pos) (s : SimState) (p : Pos)
    (h : p ∈ l) : (l.foldl foodifyCell s).pixelHP p = 1 := by
  induction l generalizing s with
  | nil => cases h
  | cons k rest ih =>
    by_cases hr : p ∈ rest
    · rw [List.foldl_cons]; exact ih _ hr
    · have hk : p = k := by
        rcases List.mem_cons.mp h with h1 | h1
        · exact h1
        · exact absurd h1 hr
      rw [List.foldl_cons, foodify_foldl_pixelHP_notin _ _ _ hr]
      simp [foodifyCell, updFn, hk]

theorem foodify_foldl_foodGet_in (l : List Pos) (s : SimState) (p : Pos)
    (h : p ∈ l) :
    amGet (l.foldl foodifyCell s).foodPixels p = some s.params.foodDecayTicks := by
  induction l generalizing s with
  | nil => cases h
  | cons k rest ih =>
    by_cases hr : p ∈ rest
    · rw [List.foldl_cons, ih _ hr]
      simp [foodifyCell]
    · have hk : p = k := by
        rcases List.mem_cons.mp h with h1 | h1
        · exact h1
        · exact absurd h1 hr
      rw [List.foldl_cons, foodify_foldl_foodGet_notin _ _ _ hr]
      simp only [foodifyCell]
      rw [hk]
      exact amGet_amSet_self _ _ _

theorem find?_filter_of_imp {α : Type} (l : List α) (p q : α → Bool)
    (h : ∀ x, p x = true → q x = true) :
    (l.filter q).find? p = l.find? p := by
  induction l with
  | nil => rfl
  | cons a rest ih =>
    by_cases hq : q a = true
    · rw [List.filter_cons_of_pos hq]
      by_cases hp : p a = true
      · rw [List.find?_cons_of_pos _ hp, List.find?_cons_of_pos _ hp]
      · rw [List.find?_cons_of_neg _ (by simpa using hp),
            List.find?_cons_of_neg _ (by simpa using hp)]
        exact ih
    · rw [List.filter_cons_of_neg (by simpa using hq)]
      have hp : ¬ p a = true := fun hpa => hq (h a hpa)
      rw [List.find?_cons_of_neg _ (by simpa using hp)]
      exact ih

theorem find?_filter_of_excl {α : Type} (l : List α) (p q : α → Bool)
    (h : ∀ x, p x = true → q x = false) :
    (l.filter q).find? p = none := by
  induction l with
  | nil => rfl
  | cons a rest ih =>
    by_cases hq : q a = true
    · rw [List.filter_cons_of_pos hq]
      have hp : ¬ p a = true := fun hpa => by rw [h a hpa] at hq; cases hq
      rw [List.find?_cons_of_neg _ (by simpa using hp)]
      exact ih
    · rw [List.filter_cons_of_neg (by simpa using hq)]
      exact ih

theorem getOrg_removeOrganism_self (s : SimState) (id : ℕ) :
    getOrg (removeOrganism s id) id = none := by
  unfold removeOrganism
  cases h : getOrg s id with
  | none => exact h
  | some org =>
    simp only
    unfold getOrg
    simp only
    exact find?_filter_of_excl _ _ _ (by
      intro o hp
      simp only [decide_eq_true_eq] at hp
      simp [hp])

theorem getOrg_removeOrganism_ne (s : SimState) (id id2 : ℕ) (h : id2 ≠ id) :
    getOrg (removeOrganism s id) id2 = getOrg s id2 := by
  unfold removeOrganism
  cases hg : getOrg s id with
  | none => rfl
  | some org =>
    simp only
    unfold getOrg
    simp only
    rw [find?_filter_of_imp _ _ _ (by
      intro o hp
      simp only [decide_eq_true_eq] at hp
      simp [hp, h])]
    rw [foodify_foldl_organisms]

theorem removeOrganism_envEnergy (s : SimState) (id : ℕ) :
    (removeOrganism s id).envEnergy = s.envEnergy := by
  unfold removeOrganism
  cases h : getOrg s id with
  | none => rfl
  | some org => simpa using foodify_foldl_envEnergy (amKeys org.pixels) s

theorem removeOrganism_params (s : SimState) (id : ℕ) :
    (removeOrganism s id).params = s.params := by
  unfold removeOrganism
  cases h : getOrg s id with
  | none => rfl
  | some org => simpa using foodify_foldl_params (amKeys org.pixels) s

theorem removeOrganism_cells (s : SimState) (id : ℕ) (org : Organism)
    (horg : getOrg s id = some org) :
    ∀ k ∈ amKeys org.pixels,
      (removeOrganism s id).grid k = -1 ∧
      (removeOrganism s id).pixelHP k = 1 ∧
      amGet (removeOrganism s id).foodPixels k = some s.params.foodDecayTicks := by
  intro k hk
  unfold removeOrganism
  rw [horg]
  simp only
  refine ⟨foodify_foldl_grid_in _ _ _ hk, foodify_foldl_pixelHP_in _ _ _ hk, ?_⟩
  exact foodify_foldl_foodGet_in _ _ _ hk

theorem removeOrganism_grid_notin (s : SimState) (id : ℕ) (p : Pos)
    (h : ∀ org, getOrg s id = some org → p ∉ amKeys org.pixels) :
    (removeOrganism s id).grid p = s.grid p := by
  unfold removeOrganism
  cases hg : getOrg s id with
  | none => rfl
  | some org => simpa using foodify_foldl_grid_notin (amKeys org.pixels) s p (h org hg)

theorem removeOrganism_pixelHP_notin (s : SimState) (id : ℕ) (p : Pos)
    (h : ∀ org, getOrg s id = some org → p ∉ amKeys org.pixels) :
    (removeOrganism s id).pixelHP p = s.pixelHP p := by
  unfold removeOrganism
  cases hg : getOrg s id with
  | none => rfl
  | some org => simpa using foodify_foldl_pixelHP_notin (amKeys org.pixels) s p (h org hg)

theorem checkConnectivity_envEnergy (s : SimState) (id : ℕ) :
    (checkConnectivity s id).envEnergy = s.envEnergy := by
  unfold checkConnectivity
  cases h : getOrg s id with
  | none => rfl
  | some org =>
    simp only
    split
    · exact removeOrganism_envEnergy s id
    · split
      · exact removeOrganism_envEnergy s id
      · split
        · split
          · rw [removeOrganism_envEnergy, modifyOrg_envEnergy, foodify_foldl_envEnergy]
          · rw [modifyOrg_envEnergy, foodify_foldl_envEnergy]
        · rw [modifyOrg_envEnergy, foodify_foldl_envEnergy]

/-- Claim C8: when the connectivity check finds the pixel set empty or the
eye absent, the organism is destroyed: it leaves the registry and every
remaining owned cell becomes a food cell with hit points 1 and decay
timer foodDecayTicks. -/
theorem C8_eye_loss_destroys (s : SimState) (id : ℕ) (org : Organism)
    (horg : getOrg s id = some org)
    (hdead : org.pixels = [] ∨ amHas org.pixels (org.eyeX, org.eyeY) = false) :
    getOrg (checkConnectivity s id) id = none ∧
    ∀ k ∈ amKeys org.pixels,
      (checkConnectivity s id).grid k = -1 ∧
      (checkConnectivity s id).pixelHP k = 1 ∧
      amGet (checkConnectivity s id).foodPixels k = some s.params.foodDecayTicks := by
  have hcc : checkConnectivity s id = removeOrganism s id := by
    unfold checkConnectivity
    rw [horg]
    simp only
    rcases hdead with hnil | heye
    · rw [if_pos (by simp [hnil])]
    · by_cases h0 : org.pixels.length = 0
      · rw [if_pos h0]
      · rw [if_neg h0, if_pos (by simp [heye])]
  rw [hcc]
  exact ⟨getOrg_removeOrganism_self s id, removeOrganism_cells s id org horg⟩

/-- Witness for C8 at the scenario state: the organism that lost its eye
cell is fully destroyed. -/
theorem C8_eye_loss_destroys_witness :
    getOrg (checkConnectivity S8 9) 9 = none ∧
    ∀ k ∈ amKeys O8.pixels,
      (checkConnectivity S8 9).grid k = -1 ∧
      (checkConnectivity S8 9).pixelHP k = 1 ∧
      amGet (checkConnectivity S8 9).foodPixels k = some S8.params.foodDecayTicks :=
  C8_eye_loss_destroys S8 9 O8 rfl (Or.inr (by decide))

theorem getOrg_foodify_foldl (l : List Pos) (s : SimState) (i : ℕ) :
    getOrg (l.foldl foodifyCell s) i = getOrg s i := by
  unfold getOrg
  rw [foodify_foldl_organisms]

theorem amKeys_filter_subset {β : Type} (l : List (Pos × β)) (q : Pos × β → Bool)
    (p : Pos) (h : p ∈ amKeys (l.filter q)) : p ∈ amKeys l := by
  rcases List.mem_map.mp h with ⟨e, he, hk⟩
  exact List.mem_map.mpr ⟨e, (List.mem_filter.mp he).1, hk⟩

theorem not_mem_amKeys_amDel {β : Type} (l : List (Pos × β)) (p : Pos) :
    p ∉ amKeys (amDel l p) := by
  intro h
  rcases List.mem_map.mp h with ⟨e, he, hk⟩
  have := (List.mem_filter.mp he).2
  exact (of_decide_eq_true this) hk

theorem getOrg_checkConnectivity_ne (s : SimState) (id id2 : ℕ) (h : id2 ≠ id) :
    getOrg (checkConnectivity s id) id2 = getOrg s id2 := by
  unfold checkConnectivity
  cases hg : getOrg s id with
  | none => rfl
  | some org =>
    simp only
    split
    · exact getOrg_removeOrganism_ne s id id2 h
    · split
      · exact getOrg_removeOrganism_ne s id id2 h
      · split
        · split
          · rw [getOrg_removeOrganism_ne _ id id2 h]
            rw [getOrg_modifyOrg_ne]
            · exact getOrg_foodify_foldl _ _ _
            · intro o; rfl
            · exact h
          · rw [getOrg_modifyOrg_ne]
            · exact getOrg_foodify_foldl _ _ _
            · intro o; rfl
            · exact h
        · rw [getOrg_modifyOrg_ne]
          · exact getOrg_foodify_foldl _ _ _
          · intro o; rfl
          · exact h

theorem checkConnectivity_pixelHP_notin (s : SimState) (id : ℕ) (p : Pos)
    (h : ∀ org, getOrg s id = some org → p ∉ amKeys org.pixels) :
    (checkConnectivity s id).pixelHP p = s.pixelHP p := by
  unfold checkConnectivity
  cases hg : getOrg s id with
  | none => rfl
  | some org =>
    simp only
    have hp : p ∉ amKeys org.pixels := h org hg
    have hdet : ∀ q : Pos → Bool, p ∉ (amKeys org.pixels).filter q := by
      intro q hmem
      exact hp (List.mem_of_mem_filter hmem)
    split
    · exact removeOrganism_pixelHP_notin s id p (fun o ho => by
        rw [hg] at ho
        cases ho
        exact hp)
    · split
      · exact removeOrganism_pixelHP_notin s id p (fun o ho => by
          rw [hg] at ho
          cases ho
          exact hp)
      · split
        · split
          · rename_i org2 heq h0
            rw [removeOrganism_pixelHP_notin, modifyOrg_pixelHP,
                foodify_foldl_pixelHP_notin _ _ _ (hdet _)]
            intro o ho
            rw [getOrg_modifyOrg_self] at ho
            · rw [getOrg_foodify_foldl, hg] at ho
              simp at ho
              subst ho
              intro hmem
              exact hp (amKeys_filter_subset _ _ _ hmem)
            · intro o2; rfl
          · rw [modifyOrg_pixelHP, foodify_foldl_pixelHP_notin _ _ _ (hdet _)]
        · rw [modifyOrg_pixelHP, foodify_foldl_pixelHP_notin _ _ _ (hdet _)]

theorem performAttack_abort (s : SimState) (id : ℕ) (org : Organism)
    (tx ty : ℤ) (targetID : ℕ) (horg : getOrg s id = some org)
    (hfee : s.params.attackEnergyCost > 0)
    (hle : org.energy - s.params.attackEnergyCost ≤ 0) :
    performAttack s id tx ty targetID = s := by
  unfold performAttack
  rw [horg]
  simp only
  rw [if_pos ⟨hfee, hle⟩]

theorem performAttack_pixelHP (s : SimState) (id : ℕ) (org : Organism)
    (tx ty : ℤ) (targetID : ℕ) (horg : getOrg s id = some org)
    (hguard : ¬ (s.params.attackEnergyCost > 0 ∧
      org.energy - s.params.attackEnergyCost ≤ 0)) :
    (performAttack s id tx ty targetID).pixelHP (tx, ty) =
      s.pixelHP (tx, ty) - 1 := by
  unfold performAttack
  rw [horg]
  simp only
  rw [if_neg hguard]
  split <;>
  · try simp only [modifyOrg_pixelHP]
    by_cases hhp : s.pixelHP (tx, ty) - 1 > 0
    · rw [if_pos hhp]
      simp [modifyOrg, updFn]
    · rw [if_neg hhp]
      split
      · rename_i torg heq
        simp only [bumpAttacking_pixelHP]
        rw [checkConnectivity_pixelHP_notin _ _ _ ?side]
        case side =>
          intro o2 ho2
          rw [getOrg_modifyOrg_self] at ho2
          · rw [heq] at ho2
            simp at ho2
            subst ho2
            exact not_mem_amKeys_amDel _ _
          · intro o3; rfl
        all_goals simp [modifyOrg, updFn]
      · simp [modifyOrg, updFn]

theorem amGet_amDel_self {β : Type} (l : List (Pos × β)) (k : Pos) :
    amGet (amDel l k) k = none := by
  unfold amGet amDel
  rw [find?_filter_of_excl]
  · rfl
  · intro x hx
    have hk := of_decide_eq_true hx
    simp [hk]

theorem performAttack_kill (s : SimState) (id : ℕ) (org : Organism) (tx ty : ℤ)
    (targetID : ℕ) (horg : getOrg s id = some org)
    (hguard : ¬ (s.params.attackEnergyCost > 0 ∧
      org.energy - s.params.attackEnergyCost ≤ 0))
    (hkill : s.pixelHP (tx, ty) = 1) (htid : targetID ≠ id) :
    (performAttack s id tx ty targetID).envEnergy =
      s.envEnergy + s.params.c2 * (1 - s.params.energyTransferRatio) ∧
    getOrg (performAttack s id tx ty targetID) id =
      some { org with energy :=
        (if s.params.attackEnergyCost > 0 then org.energy - s.params.attackEnergyCost
          else org.energy) + s.params.c2 * s.params.energyTransferRatio } := by
  have hid : id ≠ targetID := fun hh => htid hh.symm
  unfold performAttack
  rw [horg]
  simp only
  rw [if_neg hguard]
  split
  · rename_i hfee
    simp only [modifyOrg_pixelHP]
    rw [hkill]
    rw [if_neg (by decide)]
    split
    · rename_i torg heq
      constructor
      · simp only [bumpAttacking_envEnergy]
        rw [checkConnectivity_envEnergy]
        simp
      · simp only [getOrg_bumpAttacking]
        rw [getOrg_checkConnectivity_ne _ _ _ hid]
        rw [getOrg_modifyOrg_ne]
        · simp only [getOrg_withGrid, getOrg_withEnv]
          rw [getOrg_modifyOrg_self]
          · simp only [getOrg_withHP]
            rw [getOrg_modifyOrg_self]
            · rw [horg]; rfl
            · intro o; rfl
          · intro o; rfl
        · intro o; rfl
        · exact hid
    · constructor
      · simp
      · simp only [getOrg_bumpAttacking, getOrg_withGrid, getOrg_withEnv]
        rw [getOrg_modifyOrg_self]
        · simp only [getOrg_withHP]
          rw [getOrg_modifyOrg_self]
          · rw [horg]; rfl
          · intro o; rfl
        · intro o; rfl
  · rename_i hfee
    rw [hkill]
    rw [if_neg (by decide)]
    split
    · rename_i torg heq
      constructor
      · simp only [bumpAttacking_envEnergy]
        rw [checkConnectivity_envEnergy]
        simp
      · simp only [getOrg_bumpAttacking]
        rw [getOrg_checkConnectivity_ne _ _ _ hid]
        rw [getOrg_modifyOrg_ne]
        · simp only [getOrg_withGrid, getOrg_withEnv]
          rw [getOrg_modifyOrg_self]
          · simp only [getOrg_withHP]
            rw [horg]; rfl
          · intro o; rfl
        · intro o; rfl
        · exact hid
    · constructor
      · simp
      · simp only [getOrg_bumpAttacking, getOrg_withGrid, getOrg_withEnv]
        rw [getOrg_modifyOrg_self]
        · simp only [getOrg_withHP]
          rw [horg]; rfl
        · intro o; rfl

theorem absorbNeighbor_kill (s : SimState) (id : ℕ) (org : Organism) (n : Pos)
    (horg : getOrg s id = some org) (hfood : s.grid n = -1)
    (hguard : ¬ (s.params.absorbEnergyCost > 0 ∧
      org.energy - s.params.absorbEnergyCost ≤ 0))
    (hhp : s.pixelHP n = 1) :
    (absorbNeighbor s id n).1.envEnergy =
      s.envEnergy + s.params.c2 * (1 - s.params.energyTransferRatio) ∧
    getOrg (absorbNeighbor s id n).1 id =
      some { org with energy :=
        (if s.params.absorbEnergyCost > 0 then org.energy - s.params.absorbEnergyCost
          else org.energy) + s.params.c2 * s.params.energyTransferRatio } ∧
    amGet (absorbNeighbor s id n).1.foodPixels n = none ∧
    (absorbNeighbor s id n).1.grid n = 0 ∧
    (absorbNeighbor s id n).2 = true := by
  unfold absorbNeighbor
  rw [horg]
  simp only
  rw [if_neg (by simp [hfood])]
  rw [if_neg hguard]
  split
  · rename_i hfee
    simp only [modifyOrg_pixelHP]
    rw [hhp]
    rw [if_pos (by decide)]
    refine ⟨by simp, ?_, ?_, ?_, rfl⟩
    · simp only [getOrg_withFood, getOrg_withGrid, getOrg_withEnv]
      rw [getOrg_modifyOrg_self]
      · simp only [getOrg_withHP]
        rw [getOrg_modifyOrg_self]
        · rw [horg]; rfl
        · intro o; rfl
      · intro o; rfl
    · simp only [withFood_foodPixels]
      simp only [modifyOrg_foodPixels, withGrid_foodPixels, withEnv_foodPixels,
        withHP_foodPixels]
      exact amGet_amDel_self _ _
    · simp [updFn]
  · rename_i hfee
    rw [hhp]
    rw [if_pos (by decide)]
    refine ⟨by simp, ?_, ?_, ?_, rfl⟩
    · simp only [getOrg_withFood, getOrg_withGrid, getOrg_withEnv]
      rw [getOrg_modifyOrg_self]
      · simp only [getOrg_withHP]
        rw [horg]; rfl
      · intro o; rfl
    · simp only [withFood_foodPixels]
      simp only [modifyOrg_foodPixels, withGrid_foodPixels, withEnv_foodPixels,
        withHP_foodPixels]
      exact amGet_amDel_self _ _
    · simp [updFn]

/-- Claim C6: with a positive attack fee, an attack whose fee would drive
the attacker energy to zero or below is aborted with the whole state
(attacker and target included) unchanged; otherwise the attack proceeds
and reduces the target cell hit points by exactly one. -/
theorem C6_attack_fee (s : SimState) (id : ℕ) (org : Organism) (tx ty : ℤ)
    (targetID : ℕ) (horg : getOrg s id = some org)
    (hfee : s.params.attackEnergyCost > 0) :
    (org.energy - s.params.attackEnergyCost ≤ 0 →
      performAttack s id tx ty targetID = s) ∧
    (0 < org.energy - s.params.attackEnergyCost → 1 ≤ s.pixelHP (tx, ty) →
      (performAttack s id tx ty targetID).pixelHP (tx, ty) + 1 = s.pixelHP (tx, ty)) := by
  constructor
  · intro hle
    exact performAttack_abort s id org tx ty targetID horg hfee hle
  · intro hgt hhp
    have h2 := performAttack_pixelHP s id org tx ty targetID horg
      (by rintro ⟨_, hle⟩; exact absurd hgt (not_lt.mpr hle))
    omega

/-- Claim C5: when a combat kill or a food absorption completes (target
hit points reach zero), the actor gains exactly c2 times
energyTransferRatio, the environment pool gains exactly c2 times one
minus energyTransferRatio, and the two credits sum to exactly c2. -/
theorem C5_energy_transfer_split :
    (∀ (s : SimState) (id : ℕ) (org : Organism) (tx ty : ℤ) (targetID : ℕ),
      getOrg s id = some org →
      ¬ (s.params.attackEnergyCost > 0 ∧ org.energy - s.params.attackEnergyCost ≤ 0) →
      s.pixelHP (tx, ty) = 1 → targetID ≠ id →
      (performAttack s id tx ty targetID).envEnergy =
        s.envEnergy + s.params.c2 * (1 - s.params.energyTransferRatio) ∧
      getOrg (performAttack s id tx ty targetID) id =
        some { org with energy :=
          (if s.params.attackEnergyCost > 0 then org.energy - s.params.attackEnergyCost
            else org.energy) + s.params.c2 * s.params.energyTransferRatio }) ∧
    (∀ (s : SimState) (id : ℕ) (org : Organism) (n : Pos),
      getOrg s id = some org → s.grid n = -1 →
      ¬ (s.params.absorbEnergyCost > 0 ∧ org.energy - s.params.absorbEnergyCost ≤ 0) →
      s.pixelHP n = 1 →
      (absorbNeighbor s id n).1.envEnergy =
        s.envEnergy + s.params.c2 * (1 - s.params.energyTransferRatio) ∧
      getOrg (absorbNeighbor s id n).1 id =
        some { org with energy :=
          (if s.params.absorbEnergyCost > 0 then org.energy - s.params.absorbEnergyCost
            else org.energy) + s.params.c2 * s.params.energyTransferRatio } ∧
      amGet (absorbNeighbor s id n).1.foodPixels n = none) ∧
    (∀ (c2 r : ℚ), c2 * r + c2 * (1 - r) = c2) := by
  refine ⟨?_, ?_, ?_⟩
  · intro s id org tx ty targetID horg hguard hkill htid
    exact performAttack_kill s id org tx ty targetID horg hguard hkill htid
  · intro s id org n horg hfood hguard hhp
    have h := absorbNeighbor_kill s id org n horg hfood hguard hhp
    exact ⟨h.1, h.2.1, h.2.2.1⟩
  · intro c2 r
    ring

section

attribute [local semireducible] Rat.add Rat.mul Rat.sub Rat.inv

/-- Witness for C6: the attack of the combat fixture proceeds (energy
covers the fee) and reduces the target hit points by exactly one. -/
theorem C6_attack_fee_witness :
    (performAttack SA 1 2 2 2).pixelHP (2, 2) + 1 = SA.pixelHP (2, 2) :=
  (C6_attack_fee SA 1 AOrg 2 2 2 rfl (by decide)).2 (by decide) (by decide)

/-- Witness for C5: the combat kill and the food absorption of the
fixtures credit actor and environment with the exact split. -/
theorem C5_energy_transfer_split_witness :
    ((performAttack SA 1 2 2 2).envEnergy =
      SA.envEnergy + SA.params.c2 * (1 - SA.params.energyTransferRatio)) ∧
    ((absorbNeighbor SF 1 (1, 1)).1.envEnergy =
      SF.envEnergy + SF.params.c2 * (1 - SF.params.energyTransferRatio)) ∧
    (SA.params.c2 * SA.params.energyTransferRatio +
      SA.params.c2 * (1 - SA.params.energyTransferRatio) = SA.params.c2) :=
  ⟨(C5_energy_transfer_split.1 SA 1 AOrg 2 2 2 rfl (by decide) rfl (by decide)).1,
   (C5_energy_transfer_split.2.1 SF 1 AOrg (1, 1) rfl rfl (by decide) rfl).1,
   C5_energy_transfer_split.2.2 SA.params.c2 SA.params.energyTransferRatio⟩

end

theorem firstSome_eq_some {α β : Type} (f : α → Option β) (l : List α) (b : β)
    (h : firstSome f l = some b) : ∃ a ∈ l, f a = some b := by
  induction l with
  | nil => simp [firstSome] at h
  | cons a rest ih =>
    unfold firstSome at h
    cases hfa : f a with
    | some b2 =>
      rw [hfa] at h
      simp only [Option.some.injEq] at h
      exact ⟨a, List.mem_cons_self _ _, by rw [hfa, h]⟩
    | none =>
      rw [hfa] at h
      rcases ih h with ⟨a2, ha2, hf2⟩
      exact ⟨a2, List.mem_cons_of_mem _ ha2, hf2⟩

theorem growthCandidate_props (s : SimState) (org : Organism) (d : ℤ × ℤ) (b : Pos)
    (h : growthCandidate s org d = some b) :
    amHas org.pixels b = false ∧ s.grid b = 0 := by
  unfold growthCandidate at h
  by_cases c1 : ((org.genome.size : ℤ) / 2 + d.1 < 0 ∨
      (org.genome.size : ℤ) / 2 + d.1 ≥ (org.genome.size : ℤ) ∨
      (org.genome.size : ℤ) / 2 + d.2 < 0 ∨
      (org.genome.size : ℤ) / 2 + d.2 ≥ (org.genome.size : ℤ))
  · rw [if_pos c1] at h
    exact Option.noConfusion h
  · rw [if_neg c1] at h
    by_cases c2 : org.genome.pattern.getD
        ((((org.genome.size : ℤ) / 2 + d.2) * (org.genome.size : ℤ) +
          ((org.genome.size : ℤ) / 2 + d.1)).toNat) 0 = 0
    · rw [if_pos c2] at h
      exact Option.noConfusion h
    · rw [if_neg c2] at h
      cases hb : s.applyB (org.eyeX + d.1) (org.eyeY + d.2) with
      | none =>
        rw [hb] at h
        exact Option.noConfusion h
      | some b2 =>
        rw [hb] at h
        have h2 : (if amHas org.pixels b2 = true then (none : Option Pos)
            else if s.grid b2 ≠ 0 then none
            else if ((s.nbrs b2.1 b2.2).any fun n => amHas org.pixels n) = true then some b2
            else none) = some b := h
        by_cases c3 : amHas org.pixels b2 = true
        · rw [if_pos c3] at h2
          exact Option.noConfusion h2
        · rw [if_neg c3] at h2
          by_cases c4 : s.grid b2 ≠ 0
          · rw [if_pos c4] at h2
            exact Option.noConfusion h2
          · rw [if_neg c4] at h2
            by_cases c5 : ((s.nbrs b2.1 b2.2).any (fun n => amHas org.pixels n)) = true
            · rw [if_pos c5] at h2
              simp only [Option.some.injEq] at h2
              subst h2
              exact ⟨by simpa using c3, by simpa using c4⟩
            · rw [if_neg c5] at h2
              exact Option.noConfusion h2

theorem amSet_length_fresh {β : Type} (l : List (Pos × β)) (k : Pos) (v : β)
    (h : amHas l k = false) : (amSet l k v).length = l.length + 1 := by
  unfold amSet
  have h2 : (l.any (fun e => e.1 = k)) = false := by
    simpa [amHas] using h
  rw [h2]
  simp

/-- Claim C9: growth stage stays within zero to totalCells minus one; a
growth call is a no-op when growth is complete, energy is short, or no
valid ring cell exists; a successful call adds exactly one cell and
increments the growth stage by exactly one, so growth never exceeds the
genome capacity. -/
theorem C9_growth_bounds (s : SimState) (id : ℕ) (org : Organism)
    (horg : getOrg s id = some org) :
    ((org.growthStage : ℤ) ≥ (org.genome.totalCells : ℤ) - 1 →
      growOrganism s id = (s, false)) ∧
    (org.energy < max 0 s.params.growthEnergyCost → growOrganism s id = (s, false)) ∧
    (findGrowthCell s org = none → growOrganism s id = (s, false)) ∧
    (∀ s2, growOrganism s id = (s2, true) →
      ∃ p, amHas org.pixels p = false ∧
        getOrg s2 id = some { org with
          pixels := amSet org.pixels p org.genome.totalCells
          growthStage := org.growthStage + 1
          energy := org.energy - max 0 s.params.growthEnergyCost } ∧
        (amSet org.pixels p org.genome.totalCells).length = org.pixels.length + 1 ∧
        (org.growthStage : ℤ) < (org.genome.totalCells : ℤ) - 1) ∧
    ((org.growthStage : ℤ) ≤ (org.genome.totalCells : ℤ) - 1 →
      ∀ s2 b org2, growOrganism s id = (s2, b) → getOrg s2 id = some org2 →
        0 ≤ (org2.growthStage : ℤ) ∧
        (org2.growthStage : ℤ) ≤ (org2.genome.totalCells : ℤ) - 1) := by
  have hmain : growOrganism s id = (s, false) ∨
      ((org.growthStage : ℤ) < (org.genome.totalCells : ℤ) - 1 ∧
        ∃ p, findGrowthCell s org = some p ∧ amHas org.pixels p = false ∧
          growOrganism s id =
            (modifyOrg (bumpGrowing (writeCell s p (id : ℤ) org.genome.totalCells)) id
              (fun o => { o with
                pixels := amSet o.pixels p o.genome.totalCells
                growthStage := o.growthStage + 1
                energy := o.energy - max 0 s.params.growthEnergyCost }), true)) := by
    unfold growOrganism
    rw [horg]
    simp only
    by_cases hge : (org.growthStage : ℤ) ≥ (org.genome.totalCells : ℤ) - 1
    · left; rw [if_pos hge]
    · rw [if_neg hge]
      by_cases hen : org.energy < max 0 s.params.growthEnergyCost
      · left; rw [if_pos hen]
      · rw [if_neg hen]
        cases hf : findGrowthCell s org with
        | none => left; rfl
        | some p =>
          right
          refine ⟨lt_of_not_le (by simpa using hge), p, rfl, ?_, rfl⟩
          rcases firstSome_eq_some _ _ _ hf with ⟨r, _, hr⟩
          rcases firstSome_eq_some _ _ _ hr with ⟨d, _, hd⟩
          exact (growthCandidate_props s org d p hd).1
  have hnoop1 : (org.growthStage : ℤ) ≥ (org.genome.totalCells : ℤ) - 1 →
      growOrganism s id = (s, false) := by
    intro hge
    unfold growOrganism
    rw [horg]
    simp only
    rw [if_pos hge]
  have hnoop2 : org.energy < max 0 s.params.growthEnergyCost →
      growOrganism s id = (s, false) := by
    intro hen
    unfold growOrganism
    rw [horg]
    simp only
    by_cases hge : (org.growthStage : ℤ) ≥ (org.genome.totalCells : ℤ) - 1
    · rw [if_pos hge]
    · rw [if_neg hge, if_pos hen]
  have hnoop3 : findGrowthCell s org = none → growOrganism s id = (s, false) := by
    intro hf
    unfold growOrganism
    rw [horg]
    simp only
    by_cases hge : (org.growthStage : ℤ) ≥ (org.genome.totalCells : ℤ) - 1
    · rw [if_pos hge]
    · rw [if_neg hge]
      by_cases hen : org.energy < max 0 s.params.growthEnergyCost
      · rw [if_pos hen]
      · rw [if_neg hen, hf]
  have hsucc : ∀ s2, growOrganism s id = (s2, true) →
      ∃ p, amHas org.pixels p = false ∧
        getOrg s2 id = some { org with
          pixels := amSet org.pixels p org.genome.totalCells
          growthStage := org.growthStage + 1
          energy := org.energy - max 0 s.params.growthEnergyCost } ∧
        (amSet org.pixels p org.genome.totalCells).length = org.pixels.length + 1 ∧
        (org.growthStage : ℤ) < (org.genome.totalCells : ℤ) - 1 := by
    intro s2 h2
    rcases hmain with hno | ⟨hlt, p, hf, hfresh, heq⟩
    · rw [hno] at h2
      simp at h2
    · rw [heq] at h2
      simp only [Prod.mk.injEq] at h2
      refine ⟨p, hfresh, ?_, amSet_length_fresh _ _ _ hfresh, hlt⟩
      rw [← h2.1]
      rw [getOrg_modifyOrg_self]
      · simp only [getOrg_bumpGrowing, getOrg_writeCell]
        rw [horg]
        rfl
      · intro o; rfl
  refine ⟨hnoop1, hnoop2, hnoop3, hsucc, ?_⟩
  intro hle s2 b org2 h2 horg2
  cases b with
  | true =>
    rcases hsucc s2 h2 with ⟨p, _, hget, _, hlt⟩
    rw [hget] at horg2
    simp only [Option.some.injEq] at horg2
    subst horg2
    constructor
    · exact Int.ofNat_nonneg _
    · simp only
      push_cast
      omega
  | false =>
    rcases hmain with hno | ⟨_, p, _, _, heq⟩
    · rw [hno] at h2
      simp only [Prod.mk.injEq] at h2
      rw [← h2.1] at horg2
      rw [horg] at horg2
      simp only [Option.some.injEq] at horg2
      subst horg2
      exact ⟨Int.ofNat_nonneg _, hle⟩
    · rw [heq] at h2
      simp at h2

theorem decay_foldl_foodPixels (l : List Pos) (s : SimState) :
    (l.foldl decayCell s).foodPixels = s.foodPixels := by
  induction l generalizing s with
  | nil => rfl
  | cons k rest ih => simpa [decayCell] using ih (decayCell s k)

theorem decay_foldl_envEnergy (l : List Pos) (s : SimState) :
    (l.foldl decayCell s).envEnergy =
      s.envEnergy + (l.length : ℚ) * (s.params.c2 * s.params.foodDecayReturnRatio) := by
  induction l generalizing s with
  | nil => simp
  | cons k rest ih =>
    rw [List.foldl_cons, ih]
    simp only [decayCell, withEnv_envEnergy, withEnv_params, writeCell_params,
      writeCell_envEnergy, List.length_cons]
    push_cast
    ring

theorem decay_foldl_grid_notin (l : List Pos) (s : SimState) (p : Pos)
    (h : p ∉ l) : (l.foldl decayCell s).grid p = s.grid p := by
  induction l generalizing s with
  | nil => rfl
  | cons k rest ih =>
    simp only [List.mem_cons, not_or] at h
    rw [List.foldl_cons, ih _ h.2]
    simp [decayCell, updFn, h.1]

theorem decay_foldl_pixelHP_notin (l : List Pos) (s : SimState) (p : Pos)
    (h : p ∉ l) : (l.foldl decayCell s).pixelHP p = s.pixelHP p := by
  induction l generalizing s with
  | nil => rfl
  | cons k rest ih =>
    simp only [List.mem_cons, not_or] at h
    rw [List.foldl_cons, ih _ h.2]
    simp [decayCell, updFn, h.1]

theorem decay_foldl_grid_in (l : List Pos) (s : SimState) (p : Pos)
    (h : p ∈ l) : (l.foldl decayCell s).grid p = 0 := by
  induction l generalizing s with
  | nil => cases h
  | cons k rest ih =>
    by_cases hr : p ∈ rest
    · rw [List.foldl_cons]; exact ih _ hr
    · have hk : p = k := by
        rcases List.mem_cons.mp h with h1 | h1
        · exact h1
        · exact absurd h1 hr
      rw [List.foldl_cons, decay_foldl_grid_notin _ _ _ hr]
      simp [decayCell, updFn, hk]

theorem decay_foldl_pixelHP_in (l : List Pos) (s : SimState) (p : Pos)
    (h : p ∈ l) : (l.foldl decayCell s).pixelHP p = 0 := by
  induction l generalizing s with
  | nil => cases h
  | cons k rest ih =>
    by_cases hr : p ∈ rest
    · rw [List.foldl_cons]; exact ih _ hr
    · have hk : p = k := by
        rcases List.mem_cons.mp h with h1 | h1
        · exact h1
        · exact absurd h1 hr
      rw [List.foldl_cons, decay_foldl_pixelHP_notin _ _ _ hr]
      simp [decayCell, updFn, hk]

theorem amGet_eq_of_mem_nodup {β : Type} (l : List (Pos × β)) (k : Pos) (v : β)
    (hnd : (amKeys l).Nodup) (hm : (k, v) ∈ l) : amGet l k = some v := by
  induction l with
  | nil => cases hm
  | cons e tl ih =>
    simp only [amKeys, List.map_cons, List.nodup_cons] at hnd
    by_cases he : e.1 = k
    · have hv : e = (k, v) := by
        rcases List.mem_cons.mp hm with h1 | h1
        · exact h1.symm
        · exact absurd (by simpa [he] using List.mem_map_of_mem Prod.fst h1) hnd.1
      rw [hv]
      simp [amGet]
    · have hm2 : (k, v) ∈ tl := by
        rcases List.mem_cons.mp hm with h1 | h1
        · exact absurd (by rw [← h1]) he
        · exact h1
      rw [amGet, List.find?_cons_of_neg _ (by simpa using he)]
      exact ih hnd.2 hm2

theorem amKeys_map_ttl (l : List (Pos × ℤ)) :
    amKeys (l.map (fun e => (e.1, e.2 - 1))) = amKeys l := by
  induction l with
  | nil => rfl
  | cons e tl ih =>
    simp only [List.map_cons, amKeys] at ih ⊢
    rw [ih]

theorem amGet_kept_ttl (l : List (Pos × ℤ)) (k : Pos) (t : ℤ)
    (h : amGet l k = some t) (hnd : (amKeys l).Nodup) :
    amGet ((l.filter (fun e => ¬ e.2 - 1 ≤ 0)).map (fun e => (e.1, e.2 - 1))) k
      = if t - 1 ≤ 0 then none else some (t - 1) := by
  induction l with
  | nil => simp [amGet] at h
  | cons e tl ih =>
    simp only [amKeys, List.map_cons, List.nodup_cons] at hnd
    by_cases he : e.1 = k
    · have ht : e.2 = t := by
        rw [amGet, List.find?_cons_of_pos _ (by simpa using he)] at h
        simpa using h
      by_cases hq : e.2 - 1 ≤ 0
      · rw [if_pos (ht ▸ hq)]
        rw [List.filter_cons_of_neg (by simpa using hq)]
        apply amGet_eq_none_of_not_mem
        rw [amKeys_map_ttl]
        intro hmem
        exact hnd.1 (he ▸ amKeys_filter_subset tl _ _ hmem)
      · rw [if_neg (fun hc => hq (ht ▸ hc))]
        rw [List.filter_cons_of_pos (by simpa using hq), List.map_cons]
        rw [amGet, List.find?_cons_of_pos _ (by simpa using he)]
        simp [ht]
    · rw [amGet, List.find?_cons_of_neg _ (by simpa using he)] at h
      have ihr := ih h hnd.2
      by_cases hq : e.2 - 1 ≤ 0
      · rw [List.filter_cons_of_neg (by simpa using hq)]
        exact ihr
      · rw [List.filter_cons_of_pos (by simpa using hq), List.map_cons]
        rw [amGet, List.find?_cons_of_neg _ (by simpa using he)]
        exact ihr

/-- Claim C7 (amended): every food countdown decrements once per tick;
an entry whose decremented countdown reaches zero or below is removed,
its cell reverts to empty, and the environment pool is credited with c2
times foodDecayReturnRatio per removed entry. Because the step pipeline
runs spawnFood before updateFoodDecay inside the same tick, a food pixel
created at tick T with foodDecayTicks five already loses one countdown
unit at tick T and reverts at tick T plus four, not T plus five. -/
theorem C7_food_decay (s : SimState) (k : Pos) (t : ℤ)
    (hk : amGet s.foodPixels k = some t)
    (hnd : (amKeys s.foodPixels).Nodup) :
    amGet (updateFoodDecay s).foodPixels k =
      (if t - 1 ≤ 0 then none else some (t - 1)) ∧
    (t - 1 ≤ 0 →
      (updateFoodDecay s).grid k = 0 ∧ (updateFoodDecay s).pixelHP k = 0) ∧
    (¬ t - 1 ≤ 0 →
      (updateFoodDecay s).grid k = s.grid k ∧
      (updateFoodDecay s).pixelHP k = s.pixelHP k) ∧
    (updateFoodDecay s).envEnergy =
      s.envEnergy + (((s.foodPixels.filter (fun e => e.2 - 1 ≤ 0)).length : ℚ)) *
        (s.params.c2 * s.params.foodDecayReturnRatio) := by
  refine ⟨?_, ?_, ?_, ?_⟩
  · show amGet ((((s.foodPixels.filter (fun e => e.2 - 1 ≤ 0)).map
        (fun e => e.1)).foldl decayCell
        (withFood s ((s.foodPixels.filter (fun e => ¬ e.2 - 1 ≤ 0)).map
          (fun e => (e.1, e.2 - 1))))).foodPixels) k = _
    rw [decay_foldl_foodPixels, withFood_foodPixels]
    exact amGet_kept_ttl _ _ _ hk hnd
  · intro hle
    have hmem : k ∈ (s.foodPixels.filter (fun e => e.2 - 1 ≤ 0)).map
        (fun e => e.1) := by
      refine List.mem_map.mpr ⟨(k, t), ?_, rfl⟩
      exact List.mem_filter.mpr ⟨amGet_mem _ _ _ hk, by simpa using hle⟩
    exact ⟨decay_foldl_grid_in _ _ _ hmem, decay_foldl_pixelHP_in _ _ _ hmem⟩
  · intro hgt
    have hni : k ∉ (s.foodPixels.filter (fun e => e.2 - 1 ≤ 0)).map
        (fun e => e.1) := by
      intro hmem
      rcases List.mem_map.mp hmem with ⟨e, hef, hek⟩
      rcases List.mem_filter.mp hef with ⟨hel, hep⟩
      have hmem2 : (k, e.2) ∈ s.foodPixels := by
        have h2 : (e.1, e.2) ∈ s.foodPixels := by simpa using hel
        rw [hek] at h2
        exact h2
      have hsome : amGet s.foodPixels k = some e.2 :=
        amGet_eq_of_mem_nodup _ _ _ hnd hmem2
      rw [hk] at hsome
      have ht : t = e.2 := by simpa using hsome
      refine hgt ?_
      rw [ht]
      exact of_decide_eq_true hep
    constructor
    · show ((((s.foodPixels.filter (fun e => e.2 - 1 ≤ 0)).map
          (fun e => e.1)).foldl decayCell
          (withFood s ((s.foodPixels.filter (fun e => ¬ e.2 - 1 ≤ 0)).map
            (fun e => (e.1, e.2 - 1))))).grid) k = _
      rw [decay_foldl_grid_notin _ _ _ hni, withFood_grid]
    · show ((((s.foodPixels.filter (fun e => e.2 - 1 ≤ 0)).map
          (fun e => e.1)).foldl decayCell
          (withFood s ((s.foodPixels.filter (fun e => ¬ e.2 - 1 ≤ 0)).map
            (fun e => (e.1, e.2 - 1))))).pixelHP) k = _
      rw [decay_foldl_pixelHP_notin _ _ _ hni, withFood_pixelHP]
  · show ((((s.foodPixels.filter (fun e => e.2 - 1 ≤ 0)).map
        (fun e => e.1)).foldl decayCell
        (withFood s ((s.foodPixels.filter (fun e => ¬ e.2 - 1 ≤ 0)).map
          (fun e => (e.1, e.2 - 1))))).envEnergy) = _
    rw [decay_foldl_envEnergy]
    simp [List.length_map]

/-- Witness for C7: the feeding fixture holds one food pixel at (1, 1)
with countdown five; its decremented countdown is positive, so the cell
survives the decay pass unchanged. -/
theorem C7_food_decay_witness :
    (updateFoodDecay SF).grid (1, 1) = SF.grid (1, 1) ∧
    (updateFoodDecay SF).pixelHP (1, 1) = SF.pixelHP (1, 1) :=
  (C7_food_decay SF (1, 1) 5 rfl (by decide)).2.2.1 (by decide)

section

set_option maxRecDepth 4000

attribute [local semireducible] Rat.add Rat.mul Rat.sub Rat.inv

/-- Counterexample trace for the literal C7 scenario: with food decay
five and spawn rate 1/20 on the empty 4 x 4 world, a food pixel is
created at (0, 0) during tick T = 5; because the step pipeline runs
updateFoodDecay after spawnFood inside the same tick, the countdown is
already 4 at the end of tick 5, and the pixel is gone (cell empty, pool
recredited) at the end of tick 9 = T + 4, not at tick T + 5 = 10 as the
scenario states. -/
theorem C7_counterexample :
    (stepsN O0 1 S7).tick = 5 ∧
    amGet (stepsN O0 1 S7).foodPixels (0, 0) = some 4 ∧
    amGet (stepsN O0 4 S7).foodPixels (0, 0) = some 1 ∧
    (stepsN O0 5 S7).tick = 9 ∧
    amGet (stepsN O0 5 S7).foodPixels (0, 0) = none ∧
    (stepsN O0 5 S7).grid (0, 0) = 0 ∧
    (stepsN O0 5 S7).envEnergy = 2000 := by
  decide

end

theorem contLe_refl (a : Contender) : contLe a a := Or.inr ⟨rfl, le_refl _⟩

theorem contLe_trans (a b c : Contender) (h1 : contLe a b) (h2 : contLe b c) :
    contLe a c := by
  unfold contLe at h1 h2 ⊢
  omega

theorem decideWinner_go (rest : List Contender) (w : Contender) :
    ∃ v, rest.foldl (fun w c =>
      match w with
      | none => some c
      | some wv =>
        if c.priority > wv.priority ∨ (c.priority = wv.priority ∧ c.orgId > wv.orgId) then
          some c
        else some wv) (some w) = some v ∧
      (v = w ∨ v ∈ rest) ∧ contLe w v ∧ ∀ c ∈ rest, contLe c v := by
  induction rest generalizing w with
  | nil =>
    exact ⟨w, rfl, Or.inl rfl, contLe_refl w, fun c hc => absurd hc (List.not_mem_nil c)⟩
  | cons c tl ih =>
    rw [List.foldl_cons]
    by_cases hc : c.priority > w.priority ∨ (c.priority = w.priority ∧ c.orgId > w.orgId)
    · have hstep : (if c.priority > w.priority ∨
          (c.priority = w.priority ∧ c.orgId > w.orgId) then
            some c else some w) = some c := if_pos hc
      rcases ih c with ⟨v, hv, hvm, hcv, hall⟩
      have hwc : contLe w c := by unfold contLe; omega
      refine ⟨v, Eq.trans (congrArg (fun x => List.foldl _ x tl) hstep) hv, ?_,
        contLe_trans _ _ _ hwc hcv, ?_⟩
      · rcases hvm with h1 | h1
        · exact Or.inr (h1 ▸ List.mem_cons_self c tl)
        · exact Or.inr (List.mem_cons_of_mem c h1)
      · intro x hx
        rcases List.mem_cons.mp hx with h1 | h1
        · exact h1 ▸ hcv
        · exact hall x h1
    · have hstep : (if c.priority > w.priority ∨
          (c.priority = w.priority ∧ c.orgId > w.orgId) then
            some c else some w) = some w := if_neg hc
      rcases ih w with ⟨v, hv, hvm, hwv, hall⟩
      have hcw : contLe c w := by unfold contLe; omega
      refine ⟨v, Eq.trans (congrArg (fun x => List.foldl _ x tl) hstep) hv, ?_, hwv, ?_⟩
      · rcases hvm with h1 | h1
        · exact Or.inl h1
        · exact Or.inr (List.mem_cons_of_mem c h1)
      · intro x hx
        rcases List.mem_cons.mp hx with h1 | h1
        · exact h1 ▸ contLe_trans _ _ _ hcw hwv
        · exact hall x h1

theorem decideWinner_sound (cs : List Contender) (w : Contender)
    (h : decideWinner cs = some w) : w ∈ cs ∧ ∀ c ∈ cs, contLe c w := by
  cases cs with
  | nil => exact Option.noConfusion h
  | cons c tl =>
    rcases decideWinner_go tl c with ⟨v, hv, hvm, hcv, hall⟩
    have hw : some v = some w := hv.symm.trans h
    have hvw : v = w := by simpa using hw
    subst hvw
    constructor
    · rcases hvm with h1 | h1
      · exact h1 ▸ List.mem_cons_self c tl
      · exact List.mem_cons_of_mem c h1
    · intro x hx
      rcases List.mem_cons.mp hx with h1 | h1
      · exact h1 ▸ hcv
      · exact hall x h1

theorem decideWinner_total (cs : List Contender) (h : cs ≠ []) :
    ∃ w, decideWinner cs = some w := by
  cases cs with
  | nil => exact absurd rfl h
  | cons c tl =>
    rcases decideWinner_go tl c with ⟨v, hv, _, _, _⟩
    exact ⟨v, hv⟩

theorem computeWinners_go_mem (res : List (Pos × Reservation))
    (cm : List (Pos × List Contender)) (acc : List (Pos × ℕ)) (cell : Pos) (i : ℕ)
    (h : (cell, i) ∈ cm.foldl (fun acc e =>
      match amGet res e.1 with
      | some r =>
        if r.priority = INF then acc
        else
          match decideWinner e.2 with
          | some w => acc ++ [(e.1, w.orgId)]
          | none => acc
      | none =>
        match decideWinner e.2 with
        | some w => acc ++ [(e.1, w.orgId)]
        | none => acc) acc) :
    (cell, i) ∈ acc ∨
      ((∃ cs w, (cell, cs) ∈ cm ∧ decideWinner cs = some w ∧ w.orgId = i) ∧
        (amGet res cell = none ∨ ∃ r, amGet res cell = some r ∧ r.priority ≠ INF)) := by
  induction cm generalizing acc with
  | nil => exact Or.inl h
  | cons e tl ih =>
    rw [List.foldl_cons] at h
    rcases ih _ h with h1 | h1
    · cases hres : amGet res e.1 with
      | some r =>
        rw [hres] at h1
        have h2 : (cell, i) ∈ (if r.priority = INF then acc
            else match decideWinner e.2 with
              | some w => acc ++ [(e.1, w.orgId)]
              | none => acc) := h1
        by_cases hinf : r.priority = INF
        · rw [if_pos hinf] at h2
          exact Or.inl h2
        · rw [if_neg hinf] at h2
          cases hdw : decideWinner e.2 with
          | none =>
            rw [hdw] at h2
            exact Or.inl h2
          | some w =>
            rw [hdw] at h2
            have h4 : (cell, i) ∈ acc ++ [(e.1, w.orgId)] := h2
            rcases List.mem_append.mp h4 with h5 | h5
            · exact Or.inl h5
            · have h3 : cell = e.1 ∧ i = w.orgId := by
                simpa using List.mem_singleton.mp h5
              refine Or.inr ⟨⟨e.2, w, ?_, hdw, h3.2.symm⟩, Or.inr ⟨r, ?_, hinf⟩⟩
              · rw [h3.1]
                exact List.mem_cons_self e tl
              · rw [h3.1]
                exact hres
      | none =>
        rw [hres] at h1
        have h2 : (cell, i) ∈ (match decideWinner e.2 with
            | some w => acc ++ [(e.1, w.orgId)]
            | none => acc) := h1
        cases hdw : decideWinner e.2 with
        | none =>
          rw [hdw] at h2
          exact Or.inl h2
        | some w =>
          rw [hdw] at h2
          have h4 : (cell, i) ∈ acc ++ [(e.1, w.orgId)] := h2
          rcases List.mem_append.mp h4 with h5 | h5
          · exact Or.inl h5
          · have h3 : cell = e.1 ∧ i = w.orgId := by
              simpa using List.mem_singleton.mp h5
            refine Or.inr ⟨⟨e.2, w, ?_, hdw, h3.2.symm⟩, Or.inl ?_⟩
            · rw [h3.1]
              exact List.mem_cons_self e tl
            · rw [h3.1]
              exact hres
    · rcases h1 with ⟨⟨cs, w, hmem, hdw, hid⟩, hres⟩
      exact Or.inr ⟨⟨cs, w, List.mem_cons_of_mem e hmem, hdw, hid⟩, hres⟩

theorem amSet_mem_cases {β : Type} (l : List (Pos × β)) (k : Pos) (v : β)
    (e : Pos × β) (he : e ∈ amSet l k v) : e = (k, v) ∨ e ∈ l := by
  unfold amSet at he
  by_cases hk : l.any (fun e => e.1 = k)
  · rw [if_pos hk] at he
    rcases List.mem_map.mp he with ⟨e0, he0, heq⟩
    by_cases h0 : e0.1 = k
    · rw [if_pos h0] at heq
      exact Or.inl heq.symm
    · rw [if_neg h0] at heq
      exact Or.inr (heq ▸ he0)
  · rw [if_neg hk] at he
    rcases List.mem_append.mp he with h1 | h1
    · exact Or.inr h1
    · exact Or.inl (List.mem_singleton.mp h1)

theorem foldl_amSet_INF {α : Type} (key : α → Pos) (v : α → Reservation)
    (hv : ∀ a, (v a).priority = INF) (l : List α) :
    ∀ acc : List (Pos × Reservation), (∀ e ∈ acc, e.2.priority = INF) →
    ∀ e ∈ l.foldl (fun a x => amSet a (key x) (v x)) acc, e.2.priority = INF := by
  induction l with
  | nil => intro acc hacc e he; exact hacc e he
  | cons x tl ih =>
    intro acc hacc e he
    rw [List.foldl_cons] at he
    refine ih _ ?_ e he
    intro e2 he2
    rcases amSet_mem_cases _ _ _ _ he2 with h1 | h1
    · rw [h1]
      exact hv x
    · exact hacc e2 h1

theorem buildReservations_INF (s : SimState) (nm : List ℕ) :
    ∀ e ∈ buildReservations s nm, e.2.priority = INF := by
  unfold buildReservations
  refine foldl_amSet_INF (fun k => k) (fun _ => { id := -2, priority := INF })
    (fun _ => rfl) s.obstacleKeys _ ?_
  refine foldl_amSet_INF (fun e => e.1) (fun _ => { id := -1, priority := INF })
    (fun _ => rfl) s.foodPixels _ ?_
  have hgen : ∀ (l : List Organism) (acc : List (Pos × Reservation)),
      (∀ e ∈ acc, e.2.priority = INF) →
      ∀ e ∈ l.foldl (fun acc org =>
        if nm.any (fun i => i = org.id) then
          (amKeys org.pixels).foldl
            (fun a k => amSet a k { id := (org.id : ℤ), priority := INF }) acc
        else acc) acc, e.2.priority = INF := by
    intro l
    induction l with
    | nil => intro acc hacc e he; exact hacc e he
    | cons org tl ih =>
      intro acc hacc e he
      rw [List.foldl_cons] at he
      refine ih _ ?_ e he
      by_cases hm : nm.any (fun i => i = org.id)
      · rw [if_pos hm]
        exact foldl_amSet_INF (fun k => k) (fun _ => { id := (org.id : ℤ), priority := INF })
          (fun _ => rfl) (amKeys org.pixels) acc hacc
      · rw [if_neg hm]
        exact hacc
  exact hgen s.organisms [] (fun e he => absurd he (List.not_mem_nil e))

/-- Claim C3: the priority key is moveSpeed shifted left 20, or-ed with
the pixel count shifted left 10, or-ed with the low ten hash bits; the
winner of a cell is a contender that every contender of that cell is at
most equal to in the (priority, organism id) lexicographic order, so the
highest key wins and ties go to the larger organism id; a non-empty
contender list always has a winner; every winner entry stems from a
contender list of the cell map whose cell carries no static INF
reservation, a cell under a static INF reservation admits no winner, and
every entry of the static reservation map (cells of non-moving
organisms, food cells, obstacle cells) carries priority INF, so a
reserved destination admits no mover. -/
theorem C3_winner_selection :
    (∀ tick (o : Organism) (nx ny : ℤ), priorityOf tick o nx ny =
      (o.moveSpeed <<< 20) ||| (o.pixels.length <<< 10) |||
        (hash tick nx ny o.id &&& 1023)) ∧
    (∀ cs w, decideWinner cs = some w → w ∈ cs ∧ ∀ c ∈ cs, contLe c w) ∧
    (∀ cs, cs ≠ ([] : List Contender) → ∃ w, decideWinner cs = some w) ∧
    (∀ res cm cell i, (cell, i) ∈ computeWinners res cm →
      ((∃ cs w, (cell, cs) ∈ cm ∧ decideWinner cs = some w ∧ w.orgId = i) ∧
        (amGet res cell = none ∨ ∃ r, amGet res cell = some r ∧ r.priority ≠ INF))) ∧
    (∀ res cm cell r i, amGet res cell = some r → r.priority = INF →
      (cell, i) ∉ computeWinners res cm) ∧
    (∀ s nm cm cell r i, amGet (buildReservations s nm) cell = some r →
      (cell, i) ∉ computeWinners (buildReservations s nm) cm) := by
  refine ⟨fun _ _ _ _ => rfl, decideWinner_sound, decideWinner_total, ?_, ?_, ?_⟩
  · intro res cm cell i h
    rcases computeWinners_go_mem res cm [] cell i h with h1 | h1
    · cases h1
    · exact h1
  · intro res cm cell r i hres hinf hmem
    rcases computeWinners_go_mem res cm [] cell i hmem with h1 | h1
    · cases h1
    · rcases h1.2 with h2 | ⟨r2, h2, h3⟩
      · rw [hres] at h2
        exact Option.noConfusion h2
      · rw [hres] at h2
        exact h3 (by rw [← Option.some.inj h2]; exact hinf)
  · intro s nm cm cell r i hres hmem
    have hinf : r.priority = INF :=
      buildReservations_INF s nm (cell, r) (amGet_mem _ _ _ hres)
    rcases computeWinners_go_mem (buildReservations s nm) cm [] cell i hmem with h1 | h1
    · cases h1
    · rcases h1.2 with h2 | ⟨r2, h2, h3⟩
      · rw [hres] at h2
        exact Option.noConfusion h2
      · rw [hres] at h2
        exact h3 (by rw [← Option.some.inj h2]; exact hinf)

/-- Witness for C3: two contenders with equal priority on one cell; the
winner fold returns the one with the larger organism id, and both
contenders are at most the winner in the lexicographic order. -/
theorem C3_winner_selection_witness :
    ({ orgId := 2, priority := 5 } : Contender) ∈
      [({ orgId := 1, priority := 5 } : Contender), { orgId := 2, priority := 5 }] ∧
    ∀ c ∈ [({ orgId := 1, priority := 5 } : Contender), { orgId := 2, priority := 5 }],
      contLe c { orgId := 2, priority := 5 } :=
  C3_winner_selection.2.1
    [{ orgId := 1, priority := 5 }, { orgId := 2, priority := 5 }]
    { orgId := 2, priority := 5 } rfl

theorem foldl_pres {α β : Type} (f : β → α → β) (P : β → Prop)
    (h : ∀ b a, P b → P (f b a)) : ∀ (l : List α) (b : β), P b → P (l.foldl f b) := by
  intro l
  induction l with
  | nil => intro b hb; exact hb
  | cons a tl ih =>
    intro b hb
    rw [List.foldl_cons]
    exact ih _ (h b a hb)

theorem writeFold_params {α : Type} (l : List α) (k : α → Pos) (cd : α → ℤ)
    (hp : α → ℕ) (s : SimState) :
    (l.foldl (fun a p => writeCell a (k p) (cd p) (hp p)) s).params = s.params :=
  foldl_pres _ (fun st => st.params = s.params)
    (fun b a hb => by
      show (writeCell b (k a) (cd a) (hp a)).params = s.params
      rw [writeCell_params]
      exact hb) l s rfl

theorem writeFold_organisms {α : Type} (l : List α) (k : α → Pos) (cd : α → ℤ)
    (hp : α → ℕ) (s : SimState) :
    (l.foldl (fun a p => writeCell a (k p) (cd p) (hp p)) s).organisms = s.organisms :=
  foldl_pres _ (fun st => st.organisms = s.organisms)
    (fun b a hb => by
      show (writeCell b (k a) (cd a) (hp a)).organisms = s.organisms
      rw [writeCell_organisms]
      exact hb) l s rfl

theorem staminaInv_modifyOrg (s : SimState) (id : ℕ) (f : Organism → Organism)
    (hf : ∀ o ∈ s.organisms, 0 ≤ o.stamina → o.stamina ≤ s.params.staminaMax →
      0 ≤ (f o).stamina ∧ (f o).stamina ≤ s.params.staminaMax)
    (hinv : staminaInv s) : staminaInv (modifyOrg s id f) := by
  intro o2 ho2
  have horg : (modifyOrg s id f).organisms =
      s.organisms.map (fun o => if o.id = id then f o else o) := rfl
  have hpar : (modifyOrg s id f).params = s.params := rfl
  rw [hpar]
  rw [horg] at ho2
  rcases List.mem_map.mp ho2 with ⟨o, ho, heq⟩
  by_cases hid : o.id = id
  · rw [if_pos hid] at heq
    rcases hinv o ho with ⟨h1, h2⟩
    exact heq ▸ hf o ho h1 h2
  · rw [if_neg hid] at heq
    exact heq ▸ hinv o ho

theorem staminaInv_modifyOrg_drain (s : SimState) (id : ℕ) (f : Organism → Organism)
    (hst : ∀ o, (f o).stamina = max 0 (o.stamina - s.params.staminaDrainPerStep))
    (hdrain : 0 ≤ s.params.staminaDrainPerStep)
    (hinv : staminaInv s) : staminaInv (modifyOrg s id f) := by
  refine staminaInv_modifyOrg s id f ?_ hinv
  intro o _ h1 h2
  rw [hst o]
  refine ⟨le_max_left 0 _, max_le (le_trans h1 h2) ?_⟩
  exact le_trans (sub_le_self _ hdrain) h2

theorem staminaInv_modifyOrg_recover (s : SimState) (id : ℕ) (f : Organism → Organism)
    (hst : ∀ o, (f o).stamina =
      min s.params.staminaMax (o.stamina + s.params.staminaRecoveryPerTick))
    (hrec : 0 ≤ s.params.staminaRecoveryPerTick)
    (hinv : staminaInv s) : staminaInv (modifyOrg s id f) := by
  refine staminaInv_modifyOrg s id f ?_ hinv
  intro o _ h1 h2
  rw [hst o]
  exact ⟨le_min (le_trans h1 h2) (add_nonneg h1 hrec), min_le_left _ _⟩

theorem applyCommit_params (x : SimState × List MoveState) (c : CommitRec) :
    (applyCommit x c).1.params = x.1.params := by
  simp only [applyCommit]
  split
  · rfl
  · rw [modifyOrg_params, writeFold_params]

theorem applyCommit_staminaInv (x : SimState × List MoveState) (c : CommitRec)
    (hdrain : 0 ≤ x.1.params.staminaDrainPerStep)
    (hinv : staminaInv x.1) : staminaInv (applyCommit x c).1 := by
  simp only [applyCommit]
  split
  · exact hinv
  · refine staminaInv_modifyOrg_drain _ _ _ (fun o => rfl) ?_ ?_
    · rw [writeFold_params]
      exact hdrain
    · simp only [staminaInv, writeFold_organisms, writeFold_params]
      exact hinv

theorem clearSources_params (commits : List CommitRec) (dests : List Pos)
    (s : SimState) : (clearSources commits dests s).params = s.params := by
  unfold clearSources
  refine foldl_pres _ (fun st => st.params = s.params) ?_ commits s rfl
  intro b c hb
  refine foldl_pres _ (fun st => st.params = s.params) ?_ _ b hb
  intro b2 k hb2
  by_cases hd : dests.any (fun q => q = k)
  · rw [if_pos hd]
    exact hb2
  · rw [if_neg hd, writeCell_params]
    exact hb2

theorem clearSources_organisms (commits : List CommitRec) (dests : List Pos)
    (s : SimState) : (clearSources commits dests s).organisms = s.organisms := by
  unfold clearSources
  refine foldl_pres _ (fun st => st.organisms = s.organisms) ?_ commits s rfl
  intro b c hb
  refine foldl_pres _ (fun st => st.organisms = s.organisms) ?_ _ b hb
  intro b2 k hb2
  by_cases hd : dests.any (fun q => q = k)
  · rw [if_pos hd]
    exact hb2
  · rw [if_neg hd, writeCell_organisms]
    exact hb2

theorem microstep_params (s : SimState) (states : List MoveState) :
    (microstep s states).1.params = s.params := by
  simp only [microstep]
  refine foldl_pres _ (fun x : SimState × List MoveState => x.1.params = s.params)
    ?_ _ _ ?_
  · intro b a hb
    rw [applyCommit_params]
    exact hb
  · exact clearSources_params _ _ s

theorem microstep_staminaInv (s : SimState) (states : List MoveState)
    (hdrain : 0 ≤ s.params.staminaDrainPerStep) (hinv : staminaInv s) :
    staminaInv (microstep s states).1 := by
  simp only [microstep]
  have hstep : ∀ (b : SimState × List MoveState) (a : CommitRec),
      (b.1.params = s.params ∧ staminaInv b.1) →
      ((applyCommit b a).1.params = s.params ∧ staminaInv (applyCommit b a).1) := by
    intro b a hb
    refine ⟨?_, applyCommit_staminaInv b a (by rw [hb.1]; exact hdrain) hb.2⟩
    rw [applyCommit_params]
    exact hb.1
  have hinit : staminaInv (clearSources (computeCommits (gather s states
      (sortBy (fun a b => cmpMove s.tick a b ≤ 0)
        ((states.filter isMoving).filterMap (fun m => getOrg s m.orgId)))).1
      (computeWinners (buildReservations s
        ((states.filter (fun m => ¬ isMoving m)).map (fun m => m.orgId)))
        (gather s states (sortBy (fun a b => cmpMove s.tick a b ≤ 0)
          ((states.filter isMoving).filterMap (fun m => getOrg s m.orgId)))).2)
      (sortBy (fun a b => cmpMove s.tick a b ≤ 0)
        ((states.filter isMoving).filterMap (fun m => getOrg s m.orgId))))
      (destCells (computeCommits (gather s states
        (sortBy (fun a b => cmpMove s.tick a b ≤ 0)
          ((states.filter isMoving).filterMap (fun m => getOrg s m.orgId)))).1
        (computeWinners (buildReservations s
          ((states.filter (fun m => ¬ isMoving m)).map (fun m => m.orgId)))
          (gather s states (sortBy (fun a b => cmpMove s.tick a b ≤ 0)
            ((states.filter isMoving).filterMap (fun m => getOrg s m.orgId)))).2)
        (sortBy (fun a b => cmpMove s.tick a b ≤ 0)
          ((states.filter isMoving).filterMap (fun m => getOrg s m.orgId))))) s) := by
    simp only [staminaInv, clearSources_organisms, clearSources_params]
    exact hinv
  exact (foldl_pres applyCommit
    (fun x : SimState × List MoveState => x.1.params = s.params ∧ staminaInv x.1)
    hstep _ _ ⟨clearSources_params _ _ s, hinit⟩).2

theorem moveLoop_pres (fuel : ℕ) : ∀ (s : SimState) (states : List MoveState),
    0 ≤ s.params.staminaDrainPerStep → staminaInv s →
    (moveLoop fuel s states).1.params = s.params ∧
      staminaInv (moveLoop fuel s states).1 := by
  induction fuel with
  | zero => exact fun s states _ hinv => ⟨rfl, hinv⟩
  | succ n ih =>
    intro s states hdrain hinv
    simp only [moveLoop]
    by_cases he : (states.filter isMoving).isEmpty
    · rw [if_pos he]
      exact ⟨rfl, hinv⟩
    · rw [if_neg he]
      by_cases hc : (microstep s states).2.2 > 0
      · rw [if_pos hc]
        have hm := microstep_params s states
        have hi := microstep_staminaInv s states hdrain hinv
        have hr := ih (microstep s states).1 (microstep s states).2.1
          (by rw [hm]; exact hdrain) hi
        exact ⟨hr.1.trans hm, hr.2⟩
      · rw [if_neg hc]
        refine ⟨by rw [bumpStarving_params, microstep_params], ?_⟩
        simp only [staminaInv, bumpStarving_organisms, bumpStarving_params]
        exact microstep_staminaInv s states hdrain hinv

/-- Claim C10 (amended): assuming a non-negative staminaMax, a
non-negative per-tick recovery and a non-negative per-step drain, every
registered organism keeps its stamina inside the closed interval from
zero to staminaMax across moveOrganisms (the drain is clamped at zero
from below, the recovery at staminaMax from above), and createOrganism
initializes the stamina of a new organism to exactly staminaMax.  The
non-negativity of staminaDrainPerStep is necessary: a negative drain
pushes stamina beyond staminaMax. -/
theorem C10_stamina_bounds (pow : ℚ → ℚ → ℚ) (s : SimState)
    (hrec : 0 ≤ s.params.staminaRecoveryPerTick)
    (hdrain : 0 ≤ s.params.staminaDrainPerStep)
    (hinv : staminaInv s) :
    staminaInv (moveOrganisms pow s) ∧
    (moveOrganisms pow s).params = s.params ∧
    (∀ rolls x y g e org s2, createOrganism s rolls x y g e = (some org, s2) →
      org.stamina = s.params.staminaMax) := by
  have hmain : staminaInv (moveOrganisms pow s) ∧
      (moveOrganisms pow s).params = s.params := by
    simp only [moveOrganisms]
    have hloop := moveLoop_pres ((List.map (fun m => m.stepsRemaining.toNat)
      (initMoveStates pow s)).sum + 1) s (initMoveStates pow s) hdrain hinv
    have hstep2 : ∀ (b : SimState) (m : MoveState),
        (b.params = s.params ∧ staminaInv b) →
        ((if ¬ m.movedThisTick ∨ (m.dx = 0 ∧ m.dy = 0) then
            modifyOrg b m.orgId (fun o =>
              { o with stamina := min b.params.staminaMax (o.stamina + b.params.staminaRecoveryPerTick) })
          else b).params = s.params ∧
          staminaInv (if ¬ m.movedThisTick ∨ (m.dx = 0 ∧ m.dy = 0) then
            modifyOrg b m.orgId (fun o =>
              { o with stamina := min b.params.staminaMax (o.stamina + b.params.staminaRecoveryPerTick) })
          else b)) := by
      intro b m hb
      by_cases hmv : ¬ m.movedThisTick ∨ (m.dx = 0 ∧ m.dy = 0)
      · rw [if_pos hmv]
        refine ⟨by rw [modifyOrg_params]; exact hb.1, ?_⟩
        refine staminaInv_modifyOrg_recover _ _ _ (fun o => rfl) ?_ hb.2
        rw [hb.1]
        exact hrec
      · rw [if_neg hmv]
        exact hb
    have hfold := foldl_pres (fun (acc : SimState) (m : MoveState) =>
        if ¬ m.movedThisTick ∨ (m.dx = 0 ∧ m.dy = 0) then
          modifyOrg acc m.orgId (fun o =>
            { o with stamina := min acc.params.staminaMax (o.stamina + acc.params.staminaRecoveryPerTick) })
        else acc)
      (fun st : SimState => st.params = s.params ∧ staminaInv st) hstep2
      (moveLoop ((List.map (fun m => m.stepsRemaining.toNat)
        (initMoveStates pow s)).sum + 1) s (initMoveStates pow s)).2
      (moveLoop ((List.map (fun m => m.stepsRemaining.toNat)
        (initMoveStates pow s)).sum + 1) s (initMoveStates pow s)).1
      ⟨hloop.1, hloop.2⟩
    refine ⟨?_, ?_⟩
    · simp only [staminaInv, bumpStarving_organisms, bumpMoving_organisms,
        bumpStarving_params, bumpMoving_params]
      intro org ho
      exact hfold.2 org ho
    · rw [bumpStarving_params, bumpMoving_params]
      exact hfold.1
  refine ⟨hmain.1, hmain.2, ?_⟩
  intro rolls x y g e org s2 h
  unfold createOrganism at h
  split at h
  · exact absurd (congrArg Prod.fst h) (by simp)
  · split at h
    · exact absurd (congrArg Prod.fst h) (by simp)
    · have h3 := congrArg Prod.fst h
      simp only [Option.some.injEq] at h3
      rw [← h3]

section

set_option maxRecDepth 4000

attribute [local semireducible] Rat.add Rat.mul Rat.sub Rat.inv

/-- Witness for C10: the combat fixture parameters have non-negative
stamina drain and recovery, and both fixture organisms start at the
maximum, so the invariant is preserved across a movement pass. -/
theorem C10_stamina_bounds_witness :
    staminaInv (moveOrganisms O0.pow SA) :=
  (C10_stamina_bounds O0.pow SA (by decide) (by decide)
    (by unfold staminaInv; decide)).1

/-- Counterexample trace for the unguarded C10 reading: with the per-step
stamina drain set to minus five (which no clamp in the source excludes),
the single mover starts at the stamina maximum 12, moves one step, and
ends the movement pass at stamina 17, strictly above staminaMax. -/
theorem C10_counterexample :
    (0 : ℚ) ≤ P10.staminaMax ∧ (0 : ℚ) ≤ P10.staminaRecoveryPerTick ∧
    (∀ org ∈ S10.organisms, 0 ≤ org.stamina ∧ org.stamina ≤ P10.staminaMax) ∧
    ((getOrg (moveOrganisms O0.pow S10) 1).map (fun o => o.stamina) = some 17) ∧
    ¬ (17 : ℚ) ≤ P10.staminaMax := by
  decide

end

theorem tmod_neg_arg (v m : ℤ) : (-v).tmod m = -(v.tmod m) := by
  have h1 := Int.tdiv_add_tmod v m
  have h2 := Int.tdiv_add_tmod (-v) m
  rw [Int.neg_tdiv] at h2
  linarith

theorem tmod_bounds (v m : ℤ) (hm : 0 < m) : -m < Int.tmod v m ∧ Int.tmod v m < m := by
  have h1 := Int.tmod_lt_of_pos v hm
  have h2 := Int.tmod_lt_of_pos (-v) hm
  rw [tmod_neg_arg] at h2
  omega

theorem wrapCoord_sub_dvd (m : ℕ) (v : ℤ) : (m : ℤ) ∣ v - wrapCoord m v := by
  have hd : (m : ℤ) ∣ v - Int.tmod v (m : ℤ) :=
    ⟨v.tdiv (m : ℤ), by have := Int.tdiv_add_tmod v (m : ℤ); linarith⟩
  simp only [wrapCoord]
  by_cases h : Int.tmod v (m : ℤ) < 0
  · rw [if_pos h]
    have he : v - (Int.tmod v (m : ℤ) + (m : ℤ)) =
        (v - Int.tmod v (m : ℤ)) - (m : ℤ) * 1 := by ring
    rw [he]
    exact dvd_sub hd (Dvd.intro 1 rfl)
  · rw [if_neg h]
    exact hd

theorem wrapCoord_range (m : ℕ) (hm : 0 < m) (v : ℤ) :
    0 ≤ wrapCoord m v ∧ wrapCoord m v < (m : ℤ) := by
  have hm2 : (0 : ℤ) < (m : ℤ) := by exact_mod_cast hm
  have hb := tmod_bounds v (m : ℤ) hm2
  simp only [wrapCoord]
  by_cases h : Int.tmod v (m : ℤ) < 0
  · rw [if_pos h]
    omega
  · rw [if_neg h]
    omega

theorem wrap_shift_inj (m : ℕ) (_hm : 0 < m) (d x1 x2 : ℤ)
    (hx1 : 0 ≤ x1) (hx1m : x1 < (m : ℤ)) (hx2 : 0 ≤ x2) (hx2m : x2 < (m : ℤ))
    (h : wrapCoord m (x1 + d) = wrapCoord m (x2 + d)) : x1 = x2 := by
  have d1 := wrapCoord_sub_dvd m (x1 + d)
  have d2 := wrapCoord_sub_dvd m (x2 + d)
  have hdvd : (m : ℤ) ∣ x1 - x2 := by
    have he : x1 - x2 = (x1 + d - wrapCoord m (x1 + d)) -
        (x2 + d - wrapCoord m (x2 + d)) := by rw [h]; ring
    rw [he]
    exact dvd_sub d1 d2
  have hz : x1 - x2 = 0 := by
    refine Int.eq_zero_of_abs_lt_dvd hdvd ?_
    rw [abs_lt]
    omega
  omega

theorem applyBoundary_inv (m : ℕ) (bm : BoundaryMode) (x y : ℤ) (n : Pos)
    (h : applyBoundary m bm x y = some n) :
    boundX m bm x = some n.1 ∧ boundX m bm y = some n.2 := by
  unfold applyBoundary boundY at h
  cases hx : boundX m bm x with
  | none => rw [hx] at h; exact Option.noConfusion h
  | some bx =>
    cases hy : boundX m bm y with
    | none =>
      rw [hx, hy] at h
      exact Option.noConfusion h
    | some by2 =>
      rw [hx, hy] at h
      have h2 : (some ((bx, by2) : Pos) : Option Pos) = some n := h
      have h3 : ((bx, by2) : Pos) = n := by simpa using h2
      rw [← h3]
      exact ⟨rfl, rfl⟩

theorem boundX_wrap_inv (m : ℕ) (x b : ℤ) (h : boundX m .wrap x = some b) :
    b = wrapCoord m x := by
  simpa [boundX] using h.symm

theorem boundX_closed_inv (m : ℕ) (x b : ℤ) (h : boundX m .closed x = some b) :
    b = x := by
  simp only [boundX] at h
  by_cases hc : 0 ≤ x ∧ x < (m : ℤ)
  · rw [if_pos hc] at h
    simpa using h.symm
  · rw [if_neg hc] at h
    exact Option.noConfusion h

theorem boundX_shift_inj (m : ℕ) (hm : 0 < m) (bm : BoundaryMode) (d x1 x2 b : ℤ)
    (hx1 : 0 ≤ x1) (hx1m : x1 < (m : ℤ)) (hx2 : 0 ≤ x2) (hx2m : x2 < (m : ℤ))
    (h1 : boundX m bm (x1 + d) = some b) (h2 : boundX m bm (x2 + d) = some b) :
    x1 = x2 := by
  cases bm with
  | wrap =>
    have e1 := boundX_wrap_inv m (x1 + d) b h1
    have e2 := boundX_wrap_inv m (x2 + d) b h2
    exact wrap_shift_inj m hm d x1 x2 hx1 hx1m hx2 hx2m (by rw [← e1, ← e2])
  | closed =>
    have e1 := boundX_closed_inv m (x1 + d) b h1
    have e2 := boundX_closed_inv m (x2 + d) b h2
    omega

theorem getOrg_id (s : SimState) (i : ℕ) (o : Organism)
    (h : getOrg s i = some o) : o.id = i := by
  unfold getOrg at h
  have := List.find?_some h
  simpa using this

theorem getOrg_mem (s : SimState) (i : ℕ) (o : Organism)
    (h : getOrg s i = some o) : o ∈ s.organisms := by
  unfold getOrg at h
  exact List.mem_of_find?_eq_some h

theorem nodup_map_mem_inj {α β : Type} (f : α → β) (l : List α)
    (h : (l.map f).Nodup) (a b : α) (ha : a ∈ l) (hb : b ∈ l)
    (hf : f a = f b) : a = b := by
  induction l with
  | nil => cases ha
  | cons x tl ih =>
    simp only [List.map_cons, List.nodup_cons] at h
    rcases List.mem_cons.mp ha with ha1 | ha1 <;>
      rcases List.mem_cons.mp hb with hb1 | hb1
    · rw [ha1, hb1]
    · exact absurd (by rw [← ha1, hf]; exact List.mem_map_of_mem f hb1) h.1
    · exact absurd (by rw [← hb1, ← hf]; exact List.mem_map_of_mem f ha1) h.1
    · exact ih h.2 ha1 hb1

theorem insertBy_mem {α : Type} (le : α → α → Bool) (a x : α) :
    ∀ l : List α, x ∈ insertBy le a l → x = a ∨ x ∈ l := by
  intro l
  induction l with
  | nil =>
    intro h
    simpa [insertBy] using h
  | cons b tl ih =>
    intro h
    simp only [insertBy] at h
    by_cases hc : le a b
    · rw [if_pos hc] at h
      rcases List.mem_cons.mp h with h1 | h1
      · exact Or.inl h1
      · exact Or.inr h1
    · rw [if_neg hc] at h
      rcases List.mem_cons.mp h with h1 | h1
      · exact Or.inr (h1 ▸ List.mem_cons_self b tl)
      · rcases ih h1 with h2 | h2
        · exact Or.inl h2
        · exact Or.inr (List.mem_cons_of_mem b h2)

theorem sortBy_mem {α : Type} (le : α → α → Bool) (l : List α) (x : α)
    (h : x ∈ sortBy le l) : x ∈ l := by
  induction l with
  | nil =>
    simp only [sortBy, List.foldr_nil] at h
    exact absurd h (List.not_mem_nil x)
  | cons a tl ih =>
    simp only [sortBy, List.foldr_cons] at h
    rcases insertBy_mem le a x _ h with h1 | h1
    · exact h1 ▸ List.mem_cons_self a tl
    · exact List.mem_cons_of_mem a (ih h1)

theorem foldl_pres_mem {α β : Type} (f : β → α → β) (P : β → Prop) :
    ∀ (l : List α), (∀ b a, a ∈ l → P b → P (f b a)) →
    ∀ (b : β), P b → P (l.foldl f b) := by
  intro l
  induction l with
  | nil => intro _ b hb; exact hb
  | cons a tl ih =>
    intro h b hb
    rw [List.foldl_cons]
    exact ih (fun b2 a2 ha2 => h b2 a2 (List.mem_cons_of_mem a ha2)) _
      (h b a (List.mem_cons_self a tl) hb)

theorem amHas_eq_false_of_not_mem {β : Type} (l : List (Pos × β)) (k : Pos)
    (h : k ∉ amKeys l) : amHas l k = false := by
  rw [Bool.eq_false_iff]
  intro hc
  simp only [amHas, List.any_eq_true] at hc
  rcases hc with ⟨e, he, hek⟩
  exact h (by
    rcases e with ⟨k2, v⟩
    have : k2 = k := by simpa using hek
    rw [← this]
    exact List.mem_map_of_mem (fun e => e.1) he)

theorem amKeys_amSet_fresh {β : Type} (l : List (Pos × β)) (k : Pos) (v : β)
    (h : amHas l k = false) : amKeys (amSet l k v) = amKeys l ++ [k] := by
  unfold amSet
  rw [show (l.any (fun e => e.1 = k)) = false from h]
  simp [amKeys]

theorem foldl_amSet_keys {α β : Type} (key : α → Pos) (v : α → β) :
    ∀ (l : List α) (acc : List (Pos × β)), (l.map key).Nodup →
    (∀ a ∈ l, key a ∉ amKeys acc) →
    amKeys (l.foldl (fun ac a => amSet ac (key a) (v a)) acc) =
      amKeys acc ++ l.map key := by
  intro l
  induction l with
  | nil => intro acc _ _; simp
  | cons a tl ih =>
    intro acc hnd hdisj
    simp only [List.map_cons, List.nodup_cons] at hnd
    rw [List.foldl_cons]
    have hfresh : amHas acc (key a) = false :=
      amHas_eq_false_of_not_mem _ _ (hdisj a (List.mem_cons_self a tl))
    have hk := amKeys_amSet_fresh acc (key a) (v a) hfresh
    rw [ih (amSet acc (key a) (v a)) hnd.2 ?disj, hk]
    · simp
    case disj =>
      intro a2 ha2 hmem
      rw [hk] at hmem
      rcases List.mem_append.mp hmem with h1 | h1
      · exact hdisj a2 (List.mem_cons_of_mem a ha2) h1
      · have : key a2 = key a := List.mem_singleton.mp h1
        exact hnd.1 (this ▸ List.mem_map_of_mem key ha2)

theorem amKeys_length {β : Type} (l : List (Pos × β)) :
    (amKeys l).length = l.length := List.length_map l _

theorem collectProps_struct (s : SimState) (orgId : ℕ) (dx dy : ℤ) :
    ∀ (l : List Pos) (props : List Proposal),
    collectProps s orgId dx dy l = (props, true) →
    props.map (fun p => (p.ox, p.oy)) = l ∧
    ∀ p ∈ props, s.applyB (p.ox + dx) (p.oy + dy) = some (p.nx, p.ny) := by
  intro l
  induction l with
  | nil =>
    intro props h
    simp only [collectProps, Prod.mk.injEq] at h
    rw [← h.1]
    exact ⟨rfl, fun p hp => absurd hp (List.not_mem_nil p)⟩
  | cons k rest ih =>
    intro props h
    simp only [collectProps] at h
    split at h
    · exact absurd (congrArg Prod.snd h) (by simp)
    · rename_i n heq
      split at h
      · exact absurd (congrArg Prod.snd h) (by simp)
      · have hsnd := congrArg Prod.snd h
        have hfst := congrArg Prod.fst h
        simp only at hsnd hfst
        have hrest : collectProps s orgId dx dy rest =
            ((collectProps s orgId dx dy rest).1,
              (collectProps s orgId dx dy rest).2) := rfl
        rw [hsnd] at hrest
        obtain ⟨hmap, hall⟩ := ih (collectProps s orgId dx dy rest).1 hrest
        constructor
        · rw [← hfst, List.map_cons, hmap]
        · intro p hp
          rw [← hfst] at hp
          rcases List.mem_cons.mp hp with h1 | h1
          · rw [h1]
            simpa using heq
          · exact hall p h1

theorem props_dest_nodup (s : SimState) (dx dy : ℤ) (hg : 0 < s.gridSize) :
    ∀ (props : List Proposal),
    (∀ p ∈ props, s.applyB (p.ox + dx) (p.oy + dy) = some (p.nx, p.ny)) →
    (∀ p ∈ props, 0 ≤ p.ox ∧ p.ox < (s.gridSize : ℤ) ∧
      0 ≤ p.oy ∧ p.oy < (s.gridSize : ℤ)) →
    (props.map (fun p => (p.ox, p.oy))).Nodup →
    (props.map (fun p => (p.nx, p.ny))).Nodup := by
  intro props
  induction props with
  | nil => intro _ _ _; simp
  | cons p rest ih =>
    intro hall hrange hnd
    simp only [List.map_cons, List.nodup_cons] at hnd ⊢
    refine ⟨?_, ih (fun q hq => hall q (List.mem_cons_of_mem p hq))
      (fun q hq => hrange q (List.mem_cons_of_mem p hq)) hnd.2⟩
    intro hmem
    rcases List.mem_map.mp hmem with ⟨q, hq, hqe⟩
    have h1 := hall p (List.mem_cons_self p rest)
    have h2 := hall q (List.mem_cons_of_mem p hq)
    have hr1 := hrange p (List.mem_cons_self p rest)
    have hr2 := hrange q (List.mem_cons_of_mem p hq)
    have hqx : q.nx = p.nx := congrArg Prod.fst hqe
    have hqy : q.ny = p.ny := congrArg Prod.snd hqe
    rw [hqx, hqy] at h2
    have hb1 := applyBoundary_inv _ _ _ _ _ h1
    have hb2 := applyBoundary_inv _ _ _ _ _ h2
    have hx : q.ox = p.ox :=
      boundX_shift_inj s.gridSize hg _ dx q.ox p.ox p.nx hr2.1 hr2.2.1 hr1.1 hr1.2.1
        hb2.1 hb1.1
    have hy : q.oy = p.oy :=
      boundX_shift_inj s.gridSize hg _ dy q.oy p.oy p.ny hr2.2.2.1 hr2.2.2.2
        hr1.2.2.1 hr1.2.2.2 hb2.2 hb1.2
    exact hnd.1 (List.mem_map.mpr ⟨q, hq, by rw [hx, hy]⟩)

theorem computeCommits_mem (byOrg : List (ℕ × List Proposal))
    (winners : List (Pos × ℕ)) (ms : List Organism) (c : CommitRec)
    (h : c ∈ computeCommits byOrg winners ms) : ∃ org ∈ ms, c.orgId = org.id := by
  unfold computeCommits at h
  suffices haux : ∀ (l : List Organism) (acc : List CommitRec),
      c ∈ l.foldl (fun acc org =>
        match (byOrg.find? (fun e => e.1 = org.id)).map (fun e => e.2) with
        | none => acc
        | some props =>
          if props.length ≠ org.pixels.length then acc
          else if props.all (fun p => amGet winners (p.nx, p.ny) = some org.id) then
            acc ++ [{ orgId := org.id, props := props, oldPixels := org.pixels }]
          else acc) acc →
      c ∈ acc ∨ ∃ org ∈ l, c.orgId = org.id by
    rcases haux ms [] h with h1 | h1
    · cases h1
    · exact h1
  intro l
  induction l with
  | nil => intro acc hacc; exact Or.inl hacc
  | cons org tl ih =>
    intro acc hacc
    rw [List.foldl_cons] at hacc
    rcases ih _ hacc with h1 | h1
    · cases hm : (byOrg.find? (fun e => e.1 = org.id)).map (fun e => e.2) with
      | none =>
        rw [hm] at h1
        exact Or.inl h1
      | some props =>
        rw [hm] at h1
        have h2 : c ∈ (if props.length ≠ org.pixels.length then acc
            else if props.all (fun p => amGet winners (p.nx, p.ny) = some org.id) then
              acc ++ [{ orgId := org.id, props := props, oldPixels := org.pixels }]
            else acc) := h1
        by_cases hl : props.length ≠ org.pixels.length
        · rw [if_pos hl] at h2
          exact Or.inl h2
        · rw [if_neg hl] at h2
          by_cases ha : props.all (fun p => amGet winners (p.nx, p.ny) = some org.id)
          · rw [if_pos ha] at h2
            rcases List.mem_append.mp h2 with h3 | h3
            · exact Or.inl h3
            · have h4 := List.mem_singleton.mp h3
              refine Or.inr ⟨org, List.mem_cons_self org tl, ?_⟩
              rw [h4]
          · rw [if_neg ha] at h2
            exact Or.inl h2
    · rcases h1 with ⟨org2, ho2, hid⟩
      exact Or.inr ⟨org2, List.mem_cons_of_mem org ho2, hid⟩

theorem getOrg_clearSources (commits : List CommitRec) (dests : List Pos)
    (s : SimState) (i : ℕ) :
    getOrg (clearSources commits dests s) i = getOrg s i := by
  unfold getOrg
  rw [clearSources_organisms]

theorem getOrg_writeFold {α : Type} (l : List α) (key : α → Pos) (cd : α → ℤ)
    (hp : α → ℕ) (s : SimState) (i : ℕ) :
    getOrg (l.foldl (fun a p => writeCell a (key p) (cd p) (hp p)) s) i =
      getOrg s i := by
  unfold getOrg
  rw [writeFold_organisms]

theorem applyCommit_getOrg_ne (x : SimState × List MoveState) (c : CommitRec)
    (oid : ℕ) (hne : oid ≠ c.orgId) :
    getOrg (applyCommit x c).1 oid = getOrg x.1 oid := by
  simp only [applyCommit]
  split
  · rfl
  · rw [getOrg_modifyOrg_ne]
    · rw [getOrg_writeFold]
    · intro o
      rfl
    · exact hne

theorem applyCommit_states (x : SimState × List MoveState) (c : CommitRec) :
    (applyCommit x c).2 = x.2 ∨
    (applyCommit x c).2 = x.2.map (fun m =>
      if m.orgId = c.orgId then
        { m with stepsRemaining := m.stepsRemaining - 1, movedThisTick := true }
      else m) := by
  simp only [applyCommit]
  split
  · exact Or.inl rfl
  · exact Or.inr rfl

theorem foldApply_skip (oid : ℕ) :
    ∀ (commits : List CommitRec), (∀ c ∈ commits, c.orgId ≠ oid) →
    ∀ (x : SimState × List MoveState),
    getOrg (commits.foldl applyCommit x).1 oid = getOrg x.1 oid ∧
    ((∀ m ∈ x.2, m.orgId = oid → isMoving m = false) →
      ∀ m ∈ (commits.foldl applyCommit x).2, m.orgId = oid → isMoving m = false) := by
  intro commits
  induction commits with
  | nil => intro _ x; exact ⟨rfl, fun h => h⟩
  | cons c tl ih =>
    intro hne x
    rw [List.foldl_cons]
    have hcne : c.orgId ≠ oid := hne c (List.mem_cons_self c tl)
    have ihr := ih (fun c2 hc2 => hne c2 (List.mem_cons_of_mem c hc2)) (applyCommit x c)
    refine ⟨ihr.1.trans (applyCommit_getOrg_ne x c oid (fun h => hcne h.symm)), ?_⟩
    intro hInv
    refine ihr.2 ?_
    intro m hm hmo
    rcases applyCommit_states x c with hs | hs
    · rw [hs] at hm
      exact hInv m hm hmo
    · rw [hs] at hm
      rcases List.mem_map.mp hm with ⟨m0, hm0, heq⟩
      by_cases hmo0 : m0.orgId = c.orgId
      · rw [if_pos hmo0] at heq
        have : m.orgId = c.orgId := by rw [← heq]; exact hmo0
        exact absurd (this ▸ hmo) hcne
      · rw [if_neg hmo0] at heq
        exact heq ▸ hInv m0 hm0 (by rw [heq]; exact hmo)

theorem microstep_skip (s : SimState) (states : List MoveState) (oid : ℕ)
    (hInv : ∀ m ∈ states, m.orgId = oid → isMoving m = false) :
    getOrg (microstep s states).1 oid = getOrg s oid ∧
    (∀ m ∈ (microstep s states).2.1, m.orgId = oid → isMoving m = false) := by
  have hms : ∀ o ∈ sortBy (fun a b => cmpMove s.tick a b ≤ 0)
      ((states.filter isMoving).filterMap (fun m => getOrg s m.orgId)),
      o.id ≠ oid := by
    intro o ho hid
    have ho2 := sortBy_mem _ _ _ ho
    rcases List.mem_filterMap.mp ho2 with ⟨m, hm, hgo⟩
    have hmm := List.mem_filter.mp hm
    have : m.orgId = oid := by rw [← getOrg_id s m.orgId o hgo]; exact hid
    rw [hInv m hmm.1 this] at hmm
    exact Bool.noConfusion hmm.2
  have hne : ∀ (byOrg : List (ℕ × List Proposal)) (winners : List (Pos × ℕ)),
      ∀ c ∈ computeCommits byOrg winners
        (sortBy (fun a b => cmpMove s.tick a b ≤ 0)
          ((states.filter isMoving).filterMap (fun m => getOrg s m.orgId))),
      c.orgId ≠ oid := by
    intro byOrg winners c hc hco
    rcases computeCommits_mem _ _ _ _ hc with ⟨org2, ho2, hid2⟩
    exact hms org2 ho2 (by rw [← hid2]; exact hco)
  simp only [microstep]
  constructor
  · rw [(foldApply_skip oid _ (hne _ _) _).1, getOrg_clearSources]
  · exact (foldApply_skip oid _ (hne _ _) _).2 hInv

theorem moveLoop_skip (oid : ℕ) : ∀ (fuel : ℕ) (s : SimState)
    (states : List MoveState),
    (∀ m ∈ states, m.orgId = oid → isMoving m = false) →
    getOrg (moveLoop fuel s states).1 oid = getOrg s oid := by
  intro fuel
  induction fuel with
  | zero => intro s states _; rfl
  | succ n ih =>
    intro s states hInv
    simp only [moveLoop]
    by_cases he : (states.filter isMoving).isEmpty
    · rw [if_pos he]
    · rw [if_neg he]
      have hms := microstep_skip s states oid hInv
      by_cases hc : (microstep s states).2.2 > 0
      · rw [if_pos hc]
        exact (ih (microstep s states).1 (microstep s states).2.1 hms.2).trans hms.1
      · rw [if_neg hc]
        rw [getOrg_bumpStarving]
        exact hms.1

/-- Claim C1: movement is atomic per organism.  A committed move (a
commit record whose proposals arose from a fully valid per-cell
collection over the owned cells, with in-range and duplicate-free keys)
leaves the organism with exactly as many cells as before, occupying
exactly the proposal destinations; and an organism whose per-tick step
budget (the min of moveSpeed, the energy-limited steps and the
stamina-limited steps) is zero keeps its eye position across the whole
movement pass of the tick. -/
theorem C1_atomic_movement :
    (∀ (x : SimState × List MoveState) (c : CommitRec) (org : Organism) (dx dy : ℤ),
      0 < x.1.gridSize →
      getOrg x.1 c.orgId = some org →
      collectProps x.1 c.orgId dx dy (amKeys org.pixels) = (c.props, true) →
      (∀ k ∈ amKeys org.pixels, 0 ≤ k.1 ∧ k.1 < (x.1.gridSize : ℤ) ∧
        0 ≤ k.2 ∧ k.2 < (x.1.gridSize : ℤ)) →
      (amKeys org.pixels).Nodup →
      ∃ org2, getOrg (applyCommit x c).1 c.orgId = some org2 ∧
        org2.pixels.length = org.pixels.length ∧
        amKeys org2.pixels = c.props.map (fun p => (p.nx, p.ny))) ∧
    (∀ (pow : ℚ → ℚ → ℚ) (s : SimState) (oid : ℕ) (org : Organism),
      (s.organisms.map (fun o => o.id)).Nodup →
      getOrg s oid = some org →
      actualSteps pow s.params org = 0 →
      ∃ org2, getOrg (moveOrganisms pow s) oid = some org2 ∧
        org2.eyeX = org.eyeX ∧ org2.eyeY = org.eyeY) := by
  constructor
  · intro x c org dx dy hg horg hcp hrange hnd
    obtain ⟨hmap, hall⟩ := collectProps_struct x.1 c.orgId dx dy _ _ hcp
    have hrangeP : ∀ p ∈ c.props, 0 ≤ p.ox ∧ p.ox < (x.1.gridSize : ℤ) ∧
        0 ≤ p.oy ∧ p.oy < (x.1.gridSize : ℤ) := by
      intro p hp
      exact hrange (p.ox, p.oy) (by rw [← hmap]; exact List.mem_map_of_mem _ hp)
    have hndP : (c.props.map (fun p => (p.ox, p.oy))).Nodup := by
      rw [hmap]
      exact hnd
    have hdest := props_dest_nodup x.1 dx dy hg c.props hall hrangeP hndP
    have hkeys : amKeys (newPixelsOf c org.genome.totalCells) =
        c.props.map (fun p => (p.nx, p.ny)) := by
      unfold newPixelsOf
      have := foldl_amSet_keys (fun p : Proposal => (p.nx, p.ny))
        (fun p => (amGet c.oldPixels (p.ox, p.oy)).getD org.genome.totalCells)
        c.props [] hdest (by intro a _ hmem; simp [amKeys] at hmem)
      simpa using this
    have hlen : (newPixelsOf c org.genome.totalCells).length = org.pixels.length := by
      rw [← amKeys_length, hkeys, List.length_map, ← amKeys_length]
      rw [← hmap, List.length_map]
    simp only [applyCommit]
    split
    · rename_i heq
      rw [horg] at heq
      exact Option.noConfusion heq
    · rename_i o2 heq
      rw [horg] at heq
      have ho2 : org = o2 := by simpa using heq
      subst ho2
      rw [getOrg_modifyOrg_self]
      · rw [getOrg_writeFold, horg]
        exact ⟨_, rfl, hlen, hkeys⟩
      · intro o
        rfl
  · intro pow s oid org hids horg hzero
    have horgmem := getOrg_mem s oid org horg
    have hInv : ∀ m ∈ initMoveStates pow s, m.orgId = oid → isMoving m = false := by
      intro m hm hmo
      rcases List.mem_map.mp hm with ⟨o, ho, heq⟩
      have hoid : o.id = oid := by rw [← hmo, ← heq]
      have hoo : o = org := nodup_map_mem_inj _ _ hids o org ho horgmem
        (by rw [hoid, getOrg_id s oid org horg])
      rw [← heq]
      simp [isMoving, hoo, hzero]
    simp only [moveOrganisms]
    have hloop := moveLoop_skip oid ((List.map (fun m => m.stepsRemaining.toNat)
      (initMoveStates pow s)).sum + 1) s (initMoveStates pow s) hInv
    have hstepR : ∀ (b : SimState) (m : MoveState),
        (∃ o2, getOrg b oid = some o2 ∧ o2.eyeX = org.eyeX ∧ o2.eyeY = org.eyeY) →
        (∃ o2, getOrg (if ¬ m.movedThisTick ∨ (m.dx = 0 ∧ m.dy = 0) then
            modifyOrg b m.orgId (fun o =>
              { o with stamina := min b.params.staminaMax (o.stamina + b.params.staminaRecoveryPerTick) })
          else b) oid = some o2 ∧ o2.eyeX = org.eyeX ∧ o2.eyeY = org.eyeY) := by
      intro b m hb
      rcases hb with ⟨o2, hgo, hex, hey⟩
      by_cases hmv : ¬ m.movedThisTick ∨ (m.dx = 0 ∧ m.dy = 0)
      · rw [if_pos hmv]
        by_cases hid : oid = m.orgId
        · rw [← hid, getOrg_modifyOrg_self]
          · rw [hgo]
            exact ⟨_, rfl, hex, hey⟩
          · intro o
            rfl
        · rw [getOrg_modifyOrg_ne]
          · exact ⟨o2, hgo, hex, hey⟩
          · intro o
            rfl
          · exact hid
      · rw [if_neg hmv]
        exact ⟨o2, hgo, hex, hey⟩
    have hfold := foldl_pres (fun (acc : SimState) (m : MoveState) =>
        if ¬ m.movedThisTick ∨ (m.dx = 0 ∧ m.dy = 0) then
          modifyOrg acc m.orgId (fun o =>
            { o with stamina := min acc.params.staminaMax (o.stamina + acc.params.staminaRecoveryPerTick) })
        else acc)
      (fun st => ∃ o2, getOrg st oid = some o2 ∧ o2.eyeX = org.eyeX ∧ o2.eyeY = org.eyeY)
      hstepR
      (moveLoop ((List.map (fun m => m.stepsRemaining.toNat)
        (initMoveStates pow s)).sum + 1) s (initMoveStates pow s)).2
      (moveLoop ((List.map (fun m => m.stepsRemaining.toNat)
        (initMoveStates pow s)).sum + 1) s (initMoveStates pow s)).1
      ⟨org, by rw [hloop]; exact horg, rfl, rfl⟩
    simpa only [getOrg_bumpStarving, getOrg_bumpMoving] using hfold

section

attribute [local semireducible] Rat.add Rat.mul Rat.sub Rat.inv

/-- Witness for C1: the zero-stamina mover has step budget zero, so its
eye is unchanged by the movement pass. -/
theorem C1_atomic_movement_witness :
    ∃ org2, getOrg (moveOrganisms O0.pow SZ) 1 = some org2 ∧
      org2.eyeX = ZOrg.eyeX ∧ org2.eyeY = ZOrg.eyeY :=
  C1_atomic_movement.2 O0.pow SZ 1 ZOrg (by decide) rfl (by decide)

end

/-- Witness for C9: the single-cell attacker fixture is fully grown
(growth stage 0 equals totalCells minus 1), so the growth call is a
no-op. -/
theorem C9_growth_bounds_witness :
    growOrganism SA 1 = (SA, false) :=
  (C9_growth_bounds SA 1 AOrg rfl).1 (by decide)

theorem amHas_true_mem {β : Type} (l : List (Pos × β)) (k : Pos)
    (h : amHas l k = true) : k ∈ amKeys l := by
  simp only [amHas, List.any_eq_true] at h
  rcases h with ⟨e, he, hek⟩
  have h2 : e.1 = k := by simpa using hek
  rw [← h2]
  exact List.mem_map_of_mem (fun e => e.1) he

theorem ReachIn_mono (s : SimState) (S T : List Pos) (root p : Pos)
    (h : ReachIn s S root p) (hsub : ∀ x ∈ S, x ∈ T) : ReachIn s T root p := by
  induction h with
  | refl => exact ReachIn.refl
  | step p2 q hr hq hqS ih => exact ReachIn.step p2 q ih hq (hsub q hqS)

theorem bfsExpand_sound (s : SimState) (pix : List (Pos × ℕ)) (eye : Pos) :
    ∀ (fuel : ℕ) (queue reachable : List Pos),
    eye ∈ reachable →
    (∀ q ∈ queue, q ∈ reachable) →
    (∀ r ∈ reachable, ReachIn s reachable eye r) →
    (∀ r ∈ reachable, r = eye ∨ r ∈ amKeys pix) →
    eye ∈ bfsExpand s pix fuel queue reachable ∧
    (∀ r ∈ bfsExpand s pix fuel queue reachable,
      ReachIn s (bfsExpand s pix fuel queue reachable) eye r) ∧
    (∀ r ∈ bfsExpand s pix fuel queue reachable, r = eye ∨ r ∈ amKeys pix) := by
  intro fuel
  induction fuel with
  | zero =>
    intro queue reachable he _ hr hp
    exact ⟨he, hr, hp⟩
  | succ n ih =>
    intro queue reachable he hq hr hp
    cases queue with
    | nil => exact ⟨he, hr, hp⟩
    | cons k rest =>
      have hk : k ∈ reachable := hq k (List.mem_cons_self k rest)
      have hstep : ∀ (acc : List Pos × List Pos) (m : Pos), m ∈ s.nbrs k.1 k.2 →
          (eye ∈ acc.1 ∧ (∀ x ∈ reachable, x ∈ acc.1) ∧ (∀ x ∈ acc.2, x ∈ acc.1) ∧
            (∀ r ∈ acc.1, ReachIn s acc.1 eye r) ∧
            (∀ r ∈ acc.1, r = eye ∨ r ∈ amKeys pix)) →
          (eye ∈ (if amHas pix m ∧ ¬ acc.1.any (fun q => q = m) then
              (acc.1 ++ [m], acc.2 ++ [m]) else acc).1 ∧
            (∀ x ∈ reachable, x ∈ (if amHas pix m ∧ ¬ acc.1.any (fun q => q = m) then
              (acc.1 ++ [m], acc.2 ++ [m]) else acc).1) ∧
            (∀ x ∈ (if amHas pix m ∧ ¬ acc.1.any (fun q => q = m) then
              (acc.1 ++ [m], acc.2 ++ [m]) else acc).2,
              x ∈ (if amHas pix m ∧ ¬ acc.1.any (fun q => q = m) then
              (acc.1 ++ [m], acc.2 ++ [m]) else acc).1) ∧
            (∀ r ∈ (if amHas pix m ∧ ¬ acc.1.any (fun q => q = m) then
              (acc.1 ++ [m], acc.2 ++ [m]) else acc).1,
              ReachIn s (if amHas pix m ∧ ¬ acc.1.any (fun q => q = m) then
              (acc.1 ++ [m], acc.2 ++ [m]) else acc).1 eye r) ∧
            (∀ r ∈ (if amHas pix m ∧ ¬ acc.1.any (fun q => q = m) then
              (acc.1 ++ [m], acc.2 ++ [m]) else acc).1,
              r = eye ∨ r ∈ amKeys pix)) := by
        intro acc m hm hacc
        obtain ⟨h1, h2, h3, h4, h5⟩ := hacc
        by_cases hc : amHas pix m ∧ ¬ acc.1.any (fun q => q = m)
        · rw [if_pos hc]
          refine ⟨List.mem_append_left _ h1,
            fun x hx => List.mem_append_left _ (h2 x hx), ?_, ?_, ?_⟩
          · intro x hx
            rcases List.mem_append.mp hx with hxa | hxb
            · exact List.mem_append_left _ (h3 x hxa)
            · exact List.mem_append_right _ hxb
          · intro r hrm
            rcases List.mem_append.mp hrm with hra | hrb
            · exact ReachIn_mono s _ _ _ _ (h4 r hra)
                (fun x hx => List.mem_append_left _ hx)
            · have hrn : r = m := List.mem_singleton.mp hrb
              subst hrn
              have hkR : ReachIn s (acc.1 ++ [r]) eye k :=
                ReachIn_mono s _ _ _ _ (h4 k (h2 k hk))
                  (fun x hx => List.mem_append_left _ hx)
              exact ReachIn.step k r hkR hm
                (List.mem_append_right _ (List.mem_singleton.mpr rfl))
          · intro r hrm
            rcases List.mem_append.mp hrm with hra | hrb
            · exact h5 r hra
            · have hrn : r = m := List.mem_singleton.mp hrb
              subst hrn
              exact Or.inr (amHas_true_mem pix r hc.1)
        · rw [if_neg hc]
          exact ⟨h1, h2, h3, h4, h5⟩
      have hfold := foldl_pres_mem
        (fun (acc : List Pos × List Pos) n =>
          if amHas pix n ∧ ¬ acc.1.any (fun q => q = n) then
            (acc.1 ++ [n], acc.2 ++ [n])
          else acc)
        (fun acc => eye ∈ acc.1 ∧ (∀ x ∈ reachable, x ∈ acc.1) ∧
          (∀ x ∈ acc.2, x ∈ acc.1) ∧ (∀ r ∈ acc.1, ReachIn s acc.1 eye r) ∧
          (∀ r ∈ acc.1, r = eye ∨ r ∈ amKeys pix))
        (s.nbrs k.1 k.2) hstep (reachable, [])
        ⟨he, fun x hx => hx, (by intro x hx; cases hx), hr, hp⟩
      obtain ⟨hfe, hfsub, hf21, hfR, hfP⟩ := hfold
      exact ih _ _ hfe
        (by
          intro q hqm
          rcases List.mem_append.mp hqm with hq1 | hq2
          · exact hfsub q (hq q (List.mem_cons_of_mem k hq1))
          · exact hf21 q hq2)
        hfR hfP

theorem keys_filter_any (l : List (Pos × ℕ)) (R : List Pos) (x : Pos) :
    x ∈ amKeys (l.filter (fun e => R.any (fun q => q = e.1))) ↔
      (x ∈ amKeys l ∧ x ∈ R) := by
  constructor
  · intro hx
    rcases List.mem_map.mp hx with ⟨e, hef, hek⟩
    rcases List.mem_filter.mp hef with ⟨hel, hep⟩
    subst hek
    refine ⟨List.mem_map_of_mem _ hel, ?_⟩
    simp only [List.any_eq_true] at hep
    rcases hep with ⟨q, hqR, hq⟩
    have hqe : q = e.1 := by simpa using hq
    rw [← hqe]
    exact hqR
  · rintro ⟨hxl, hxR⟩
    rcases List.mem_map.mp hxl with ⟨e, hel, hek⟩
    subst hek
    refine List.mem_map_of_mem _ (List.mem_filter.mpr ⟨hel, ?_⟩)
    simp only [List.any_eq_true]
    exact ⟨e.1, hxR, by simp⟩

/-- The Connectivity Maintainer of the spec (checkConnectivity): a
missing registry entry is a no-op; an empty pixel set or a missing eye
destroys the organism; and every organism surviving the check is
8-connected with its eye among its cells — the invariant is
re-established.  The survivor's cell set is the set reached by the
traversal from the eye, so the check itself never needs the input to be
connected. -/
theorem connectivity_maintainer_sound (s : SimState) (id : ℕ) :
    (getOrg s id = none → checkConnectivity s id = s) ∧
    (∀ org, getOrg s id = some org → org.pixels.length = 0 →
      checkConnectivity s id = removeOrganism s id) ∧
    (∀ org, getOrg s id = some org → ¬ org.pixels.length = 0 →
      amHas org.pixels (eyePos org) = false →
      checkConnectivity s id = removeOrganism s id) ∧
    (∀ org2, getOrg (checkConnectivity s id) id = some org2 →
      connectedOrg s org2) := by
  refine ⟨?_, ?_, ?_, ?_⟩
  · intro h
    unfold checkConnectivity
    rw [h]
  · intro org h hlen
    unfold checkConnectivity
    split
    · rename_i heq
      rw [h] at heq
      exact Option.noConfusion heq
    · rename_i org0 heq
      rw [h] at heq
      have ho : org = org0 := by simpa using heq
      subst ho
      rw [if_pos hlen]
  · intro org h hlen heye
    unfold checkConnectivity
    split
    · rename_i heq
      rw [h] at heq
      exact Option.noConfusion heq
    · rename_i org0 heq
      rw [h] at heq
      have ho : org = org0 := by simpa using heq
      subst ho
      rw [if_neg hlen, if_pos (by simp [eyePos] at heye; simp [heye])]
  · intro org2 h2
    simp only [checkConnectivity] at h2
    split at h2
    · rename_i heq
      rw [heq] at h2
      exact absurd h2 (by simp)
    · rename_i org heq
      split at h2
      · rw [getOrg_removeOrganism_self] at h2
        exact Option.noConfusion h2
      · split at h2
        · rw [getOrg_removeOrganism_self] at h2
          exact Option.noConfusion h2
        · rename_i hlen heyec
          split at h2
          · rename_i org3 heq3
            split at h2
            · rw [getOrg_removeOrganism_self] at h2
              exact Option.noConfusion h2
            · rw [heq3] at h2
              have ho23 : org3 = org2 := by simpa using h2
              subst ho23
              have heye : amHas org.pixels (org.eyeX, org.eyeY) = true := by
                simpa using heyec
              have heyeK : (org.eyeX, org.eyeY) ∈ amKeys org.pixels :=
                amHas_true_mem _ _ heye
              have hgs3 : getOrg (modifyOrg
                  (((amKeys org.pixels).filter (fun k =>
                    ¬ (bfsExpand s org.pixels (org.pixels.length + 2)
                      [(org.eyeX, org.eyeY)] [(org.eyeX, org.eyeY)]).any
                        (fun q => q = k))).foldl foodifyCell s) id
                  (fun o => { o with pixels := o.pixels.filter (fun e =>
                    (bfsExpand s org.pixels (org.pixels.length + 2)
                      [(org.eyeX, org.eyeY)] [(org.eyeX, org.eyeY)]).any
                        (fun q => q = e.1)) })) id =
                  some { org with pixels := org.pixels.filter (fun e =>
                    (bfsExpand s org.pixels (org.pixels.length + 2)
                      [(org.eyeX, org.eyeY)] [(org.eyeX, org.eyeY)]).any
                        (fun q => q = e.1)) } := by
                rw [getOrg_modifyOrg_self]
                · rw [getOrg_foodify_foldl, heq]
                  rfl
                · intro o
                  rfl
              rw [hgs3] at heq3
              have ho3 : org3 = { org with pixels := org.pixels.filter (fun e =>
                  (bfsExpand s org.pixels (org.pixels.length + 2)
                    [(org.eyeX, org.eyeY)] [(org.eyeX, org.eyeY)]).any
                      (fun q => q = e.1)) } := by simpa using heq3.symm
              obtain ⟨hRe, hRr, hRp⟩ := bfsExpand_sound s org.pixels
                (org.eyeX, org.eyeY) (org.pixels.length + 2)
                [(org.eyeX, org.eyeY)] [(org.eyeX, org.eyeY)]
                (List.mem_singleton.mpr rfl)
                (fun q hq => hq)
                (by
                  intro r hrm
                  have hre : r = (org.eyeX, org.eyeY) := List.mem_singleton.mp hrm
                  subst hre
                  exact ReachIn.refl)
                (by
                  intro r hrm
                  exact Or.inl (List.mem_singleton.mp hrm))
              have hsub : ∀ x ∈ bfsExpand s org.pixels (org.pixels.length + 2)
                  [(org.eyeX, org.eyeY)] [(org.eyeX, org.eyeY)],
                  x ∈ amKeys org3.pixels := by
                intro x hx
                rw [ho3]
                refine (keys_filter_any _ _ _).mpr ⟨?_, hx⟩
                rcases hRp x hx with h1 | h1
                · rw [h1]
                  exact heyeK
                · exact h1
              constructor
              · have : eyePos org3 = (org.eyeX, org.eyeY) := by rw [ho3]; rfl
                rw [this]
                exact hsub _ hRe
              · intro k hk
                have hkR : k ∈ bfsExpand s org.pixels (org.pixels.length + 2)
                    [(org.eyeX, org.eyeY)] [(org.eyeX, org.eyeY)] := by
                  rw [ho3] at hk
                  exact ((keys_filter_any _ _ _).mp hk).2
                have : eyePos org3 = (org.eyeX, org.eyeY) := by rw [ho3]; rfl
                rw [this]
                exact ReachIn_mono s _ _ _ _ (hRr k hkR) hsub
          · rename_i heq3
            rw [heq3] at h2
            exact Option.noConfusion h2

end PixelSim
